import Mathlib

/-!
Shallow embedding of the BarrelConsensus contract
(src/unnamed/part_000, Solidity).  Addresses and token identifiers are
modelled as natural numbers, the zero address as 0.  Solidity mappings
are total functions returning the zero value of the struct on absent
keys, exactly as the EVM storage model does.  Machine integers are
uint256; none of the arithmetic in the contract can overflow for the
stake sizes considered, and Solidity 0.8 reverts on overflow, so Nat
with the same division/subtraction semantics is faithful (Solidity
subtraction reverts on underflow; the one subtraction in the code,
amount - slash, satisfies slash <= amount, so Nat truncation agrees).
-/

/-- Mirrors enum ProposalStatus (line 18): Pending is the zero value. -/
inductive ProposalStatus
  | Pending
  | Executed
  | Expired
  | Rejected
  deriving DecidableEq, Repr

/-- Mirrors enum TradeDirection (line 19): Long is the zero value. -/
inductive TradeDirection
  | Long
  | Short
  | Hold
  deriving DecidableEq, Repr

/-- Addresses (and token identifiers) are modelled as Nat; 0 is the zero address. -/
abbrev Addr : Type := Nat

/-- Proposal identifier.  The contract computes
keccak256(abi.encodePacked(token, direction, block.timestamp, msg.sender))
(line 128).  keccak256 on the packed tuple is modelled as the tuple
itself: it is deterministic and injective on distinct tuples
(hash collisions between distinct tuples are cryptographically
negligible and ignored), and equal tuples give equal hashes. -/
structure ProposalId where
  token : Addr
  direction : TradeDirection
  timestamp : Nat
  creator : Addr
  deriving DecidableEq, Repr

/-- Mirrors struct Proposal (lines 21-31). -/
structure Proposal where
  id : ProposalId
  token : Addr
  direction : TradeDirection
  createdAt : Nat
  expiresAt : Nat
  totalStakeFor : Nat
  totalStakeAgainst : Nat
  status : ProposalStatus
  creator : Addr
  deriving DecidableEq, Repr

/-- Mirrors struct Stake (lines 33-37). -/
structure Stake where
  amount : Nat
  isFor : Bool
  claimed : Bool
  deriving DecidableEq, Repr

/-- Mirrors struct AgentInfo (lines 39-45). -/
structure AgentInfo where
  registered : Bool
  totalStaked : Nat
  wins : Nat
  losses : Nat
  cooldownUntil : Nat
  deriving DecidableEq, Repr

/-- EVM zero value of the ProposalId slot. -/
def zeroId : ProposalId := ⟨0, TradeDirection.Long, 0, 0⟩

/-- EVM zero value of a Proposal storage slot (what a missing mapping key reads as). -/
def zeroProposal : Proposal :=
  ⟨zeroId, 0, TradeDirection.Long, 0, 0, 0, 0, ProposalStatus.Pending, 0⟩

/-- EVM zero value of a Stake storage slot. -/
def zeroStake : Stake := ⟨0, false, false⟩

/-- EVM zero value of an AgentInfo storage slot. -/
def zeroAgent : AgentInfo := ⟨false, 0, 0, 0, 0⟩

/-- Contract constants (lines 53-57). -/
def QUORUM_BPS : Nat := 6600

/-- PROPOSAL_TIMEOUT = 30 seconds (line 54). -/
def PROPOSAL_TIMEOUT : Nat := 30

/-- COOLDOWN_PERIOD = 60 seconds (line 55). -/
def COOLDOWN_PERIOD : Nat := 60

/-- SLASH_BPS = 1000, i.e. 10 percent (line 56). -/
def SLASH_BPS : Nat := 1000

/-- REWARD_BPS = 500, i.e. 5 percent (line 57). -/
def REWARD_BPS : Nat := 500

/-- Pointwise update of a mapping, modelling a storage write at one key. -/
def updFn {α β : Type} [DecidableEq α] (m : α → β) (k : α) (v : β) : α → β :=
  fun x => if x = k then v else m x

/-- Contract storage (lines 49-65).  The immutable barrelToken address is
external custody and is represented only through the emitted transfer
outputs; vault and owner are kept. -/
structure EngineState where
  proposals : ProposalId → Proposal
  stakes : ProposalId → Addr → Stake
  proposalStakers : ProposalId → List Addr
  agents : Addr → AgentInfo
  activeProposalIds : List ProposalId
  allProposalIds : List ProposalId
  owner : Addr
  vault : Addr

/-- The observable outputs of a call: emitted events, ERC20 transfer calls,
and the vault execution call of interface IBarrelVault (lines 6-8).
TokenIn a n models barrelToken.transferFrom(a, this, n);
TokenOut a n models barrelToken.transfer(a, n);
ExecuteTrade models vault.executeSimpleTrade — present in the interface,
but never emitted by any function of the contract, because the only call
site (line 272) is commented out in the source. -/
inductive Output
  | ProposalCreated (id : ProposalId) (token : Addr) (direction : TradeDirection) (agent : Addr)
  | StakePlaced (id : ProposalId) (agent : Addr) (amount : Nat) (isFor : Bool)
  | ConsensusReached (id : ProposalId) (direction : TradeDirection) (totalStake : Nat)
  | ProposalExpiredEv (id : ProposalId)
  | ProposalRejectedEv (id : ProposalId)
  | AgentRegisteredEv (agent : Addr)
  | AgentSlashed (agent : Addr) (amount : Nat)
  | RewardClaimed (agent : Addr) (id : ProposalId) (amount : Nat)
  | VaultUpdated (v : Addr)
  | TokenIn (agent : Addr) (amount : Nat)
  | TokenOut (agent : Addr) (amount : Nat)
  | ExecuteTrade (id : ProposalId) (tokenIn : Addr) (tokenOut : Addr) (amountIn : Nat)
  deriving DecidableEq, Repr

/-- Custom errors of the contract (lines 81-89). -/
inductive Err
  | NotOwner
  | NotRegisteredAgent
  | AgentOnCooldown
  | ProposalNotActive
  | ProposalNotFinalized
  | AlreadyStaked
  | AlreadyClaimed
  | InsufficientStake
  | ZeroAddress
  deriving DecidableEq, Repr

/-- Mirrors _removeFromActive (lines 281-290): find the first occurrence,
overwrite it with the last element, pop the last element. -/
def removeFromActive (l : List ProposalId) (pid : ProposalId) : List ProposalId :=
  match l.findIdx? (fun x => decide (x = pid)) with
  | none => l
  | some i => (l.set i (l.getLastD zeroId)).dropLast

/-- Mirrors createProposal (lines 119-159).  sender is msg.sender, now is
block.timestamp.  A revert is an error result leaving state unchanged.
Note the contract never checks whether proposals[proposalId] already
holds a proposal: the fresh record and the fresh creator stake are
written unconditionally. -/
def createProposal (s : EngineState) (sender now : Nat) (token : Addr)
    (direction : TradeDirection) (initialStake : Nat) :
    Except Err (EngineState × ProposalId × List Output) :=
  if ¬ (s.agents sender).registered then .error .NotRegisteredAgent
  else if now < (s.agents sender).cooldownUntil then .error .AgentOnCooldown
  else if initialStake = 0 then .error .InsufficientStake
  else
    let pid : ProposalId := ⟨token, direction, now, sender⟩
    let p : Proposal :=
      { id := pid, token := token, direction := direction, createdAt := now,
        expiresAt := now + PROPOSAL_TIMEOUT, totalStakeFor := initialStake,
        totalStakeAgainst := 0, status := ProposalStatus.Pending, creator := sender }
    let ag := s.agents sender
    let s1 : EngineState :=
      { s with
        proposals := updFn s.proposals pid p,
        stakes := updFn s.stakes pid
          (updFn (s.stakes pid) sender ⟨initialStake, true, false⟩),
        proposalStakers := updFn s.proposalStakers pid (s.proposalStakers pid ++ [sender]),
        agents := updFn s.agents sender { ag with totalStaked := ag.totalStaked + initialStake },
        activeProposalIds := s.activeProposalIds ++ [pid],
        allProposalIds := s.allProposalIds ++ [pid] }
    .ok (s1, pid,
      [Output.TokenIn sender initialStake,
       Output.ProposalCreated pid token direction sender,
       Output.StakePlaced pid sender initialStake true])

/-- Mirrors _checkConsensus (lines 255-279).  The branch at lines 270-273
(trigger vault execution when the direction is not Hold and the vault is
set) has an empty body in the source: the call
vault.executeSimpleTrade(...) at line 272 is commented out, so the
branch has no effect on state or outputs. -/
def checkConsensus (s : EngineState) (pid : ProposalId) : EngineState × List Output :=
  let p := s.proposals pid
  let totalStake := p.totalStakeFor + p.totalStakeAgainst
  if totalStake = 0 then (s, [])
  else
    let forPercentage := p.totalStakeFor * 10000 / totalStake
    let againstPercentage := p.totalStakeAgainst * 10000 / totalStake
    if forPercentage ≥ QUORUM_BPS then
      ({ s with
          proposals := updFn s.proposals pid { p with status := ProposalStatus.Executed },
          activeProposalIds := removeFromActive s.activeProposalIds pid },
       [Output.ConsensusReached pid p.direction p.totalStakeFor])
    else if againstPercentage ≥ QUORUM_BPS then
      ({ s with
          proposals := updFn s.proposals pid { p with status := ProposalStatus.Rejected },
          activeProposalIds := removeFromActive s.activeProposalIds pid },
       [Output.ProposalRejectedEv pid])
    else (s, [])

/-- Mirrors stake (lines 167-195). -/
def stake (s : EngineState) (sender now : Nat) (pid : ProposalId)
    (amount : Nat) (isFor : Bool) : Except Err (EngineState × List Output) :=
  if ¬ (s.agents sender).registered then .error .NotRegisteredAgent
  else
    let p := s.proposals pid
    if p.status ≠ ProposalStatus.Pending then .error .ProposalNotActive
    else if p.expiresAt ≤ now then .error .ProposalNotActive
    else if 0 < (s.stakes pid sender).amount then .error .AlreadyStaked
    else if amount = 0 then .error .InsufficientStake
    else
      let ag := s.agents sender
      let p1 := if isFor then { p with totalStakeFor := p.totalStakeFor + amount }
                else { p with totalStakeAgainst := p.totalStakeAgainst + amount }
      let s1 : EngineState :=
        { s with
          stakes := updFn s.stakes pid
            (updFn (s.stakes pid) sender ⟨amount, isFor, false⟩),
          proposalStakers := updFn s.proposalStakers pid (s.proposalStakers pid ++ [sender]),
          agents := updFn s.agents sender { ag with totalStaked := ag.totalStaked + amount },
          proposals := updFn s.proposals pid p1 }
      let r := checkConsensus s1 pid
      .ok (r.1, [Output.TokenIn sender amount,
                 Output.StakePlaced pid sender amount isFor] ++ r.2)

/-- Mirrors claimRewards (lines 201-236). -/
def claimRewards (s : EngineState) (sender now : Nat) (pid : ProposalId) :
    Except Err (EngineState × List Output) :=
  let p := s.proposals pid
  let userStake := s.stakes pid sender
  if p.status = ProposalStatus.Pending then .error .ProposalNotFinalized
  else if userStake.amount = 0 then .error .InsufficientStake
  else if userStake.claimed then .error .AlreadyClaimed
  else
    let s1 : EngineState :=
      { s with
        stakes := updFn s.stakes pid
          (updFn (s.stakes pid) sender { userStake with claimed := true }) }
    if (p.status = ProposalStatus.Executed ∧ userStake.isFor = true) ∨
       (p.status = ProposalStatus.Rejected ∧ userStake.isFor = false) then
      let bonus := userStake.amount * REWARD_BPS / 10000
      let payout := userStake.amount + bonus
      let ag := s1.agents sender
      let s2 : EngineState :=
        { s1 with agents := updFn s1.agents sender { ag with wins := ag.wins + 1 } }
      .ok (s2, [Output.RewardClaimed sender pid payout] ++
        (if 0 < payout then [Output.TokenOut sender payout] else []))
    else if p.status = ProposalStatus.Expired then
      let payout := userStake.amount
      .ok (s1, if 0 < payout then [Output.TokenOut sender payout] else [])
    else
      let slash := userStake.amount * SLASH_BPS / 10000
      let payout := userStake.amount - slash
      let ag := s1.agents sender
      let s2 : EngineState :=
        { s1 with
          agents := updFn s1.agents sender
            { ag with losses := ag.losses + 1, cooldownUntil := now + COOLDOWN_PERIOD } }
      .ok (s2, [Output.AgentSlashed sender slash] ++
        (if 0 < payout then [Output.TokenOut sender payout] else []))

/-- Mirrors expireProposal (lines 242-251); callable by anyone. -/
def expireProposal (s : EngineState) (now : Nat) (pid : ProposalId) :
    Except Err (EngineState × List Output) :=
  let p := s.proposals pid
  if p.status ≠ ProposalStatus.Pending then .error .ProposalNotActive
  else if now < p.expiresAt then .error .ProposalNotFinalized
  else
    .ok ({ s with
            proposals := updFn s.proposals pid { p with status := ProposalStatus.Expired },
            activeProposalIds := removeFromActive s.activeProposalIds pid },
         [Output.ProposalExpiredEv pid])

/-- Mirrors registerAgent (lines 294-298). -/
def registerAgent (s : EngineState) (sender agent : Addr) :
    Except Err (EngineState × List Output) :=
  if sender ≠ s.owner then .error .NotOwner
  else if agent = 0 then .error .ZeroAddress
  else
    .ok ({ s with
            agents := updFn s.agents agent { s.agents agent with registered := true } },
         [Output.AgentRegisteredEv agent])

/-- Mirrors setVault (lines 300-303). -/
def setVault (s : EngineState) (sender v : Addr) :
    Except Err (EngineState × List Output) :=
  if sender ≠ s.owner then .error .NotOwner
  else .ok ({ s with vault := v }, [Output.VaultUpdated v])

/-- Mirrors renounceOwnership (lines 305-307). -/
def renounceOwnership (s : EngineState) (sender : Addr) :
    Except Err (EngineState × List Output) :=
  if sender ≠ s.owner then .error .NotOwner
  else .ok ({ s with owner := 0 }, [])

/-- The externally callable operations of the contract, with their callers. -/
inductive Op
  | createProposalOp (sender : Addr) (token : Addr) (direction : TradeDirection)
      (initialStake : Nat)
  | stakeOp (sender : Addr) (pid : ProposalId) (amount : Nat) (isFor : Bool)
  | claimRewardsOp (sender : Addr) (pid : ProposalId)
  | expireProposalOp (pid : ProposalId)
  | registerAgentOp (sender : Addr) (agent : Addr)
  | setVaultOp (sender : Addr) (v : Addr)
  | renounceOwnershipOp (sender : Addr)
  deriving DecidableEq, Repr

/-- Transaction semantics: a reverting call leaves the state unchanged and
emits nothing. -/
def applyOp (s : EngineState) (now : Nat) (op : Op) : EngineState × List Output :=
  match op with
  | .createProposalOp sender token dir amt =>
      match createProposal s sender now token dir amt with
      | .ok (s1, _, outs) => (s1, outs)
      | .error _ => (s, [])
  | .stakeOp sender pid amount isFor =>
      match stake s sender now pid amount isFor with
      | .ok (s1, outs) => (s1, outs)
      | .error _ => (s, [])
  | .claimRewardsOp sender pid =>
      match claimRewards s sender now pid with
      | .ok (s1, outs) => (s1, outs)
      | .error _ => (s, [])
  | .expireProposalOp pid =>
      match expireProposal s now pid with
      | .ok (s1, outs) => (s1, outs)
      | .error _ => (s, [])
  | .registerAgentOp sender agent =>
      match registerAgent s sender agent with
      | .ok (s1, outs) => (s1, outs)
      | .error _ => (s, [])
  | .setVaultOp sender v =>
      match setVault s sender v with
      | .ok (s1, outs) => (s1, outs)
      | .error _ => (s, [])
  | .renounceOwnershipOp sender =>
      match renounceOwnership s sender with
      | .ok (s1, outs) => (s1, outs)
      | .error _ => (s, [])

/-- A world event: either a call at the current block time, or the block
timestamp advancing (block.timestamp is non-decreasing). -/
inductive Event
  | call (op : Op)
  | tick (dt : Nat)
  deriving DecidableEq, Repr

/-- A world: contract storage, the current block timestamp, and the
accumulated output log. -/
structure World where
  st : EngineState
  now : Nat
  log : List Output

def stepW (w : World) (e : Event) : World :=
  match e with
  | .tick dt => { w with now := w.now + dt }
  | .call op =>
      let r := applyOp w.st w.now op
      { w with st := r.1, log := w.log ++ r.2 }

def runW (w : World) (es : List Event) : World := es.foldl stepW w

/-- The state right after the constructor (lines 105-109): empty storage,
owner = deployer, the given vault address. -/
def initState (deployer vaultAddr : Addr) : EngineState :=
  { proposals := fun _ => zeroProposal,
    stakes := fun _ _ => zeroStake,
    proposalStakers := fun _ => [],
    agents := fun _ => zeroAgent,
    activeProposalIds := [],
    allProposalIds := [],
    owner := deployer,
    vault := vaultAddr }

/-- Reachability: a world produced from some deployment by some sequence of
calls and clock advances. -/
def Reachable (w : World) : Prop :=
  ∃ deployer vaultAddr t0 es,
    runW { st := initState deployer vaultAddr, now := t0, log := [] } es = w

/-- Sum of amounts debited into escrow (barrelToken.transferFrom calls). -/
def sumStakedIn : List Output → Nat
  | [] => 0
  | Output.TokenIn _ n :: rest => n + sumStakedIn rest
  | _ :: rest => sumStakedIn rest

/-- Sum of amounts credited back to participants (barrelToken.transfer calls). -/
def sumPaidOut : List Output → Nat
  | [] => 0
  | Output.TokenOut _ n :: rest => n + sumPaidOut rest
  | _ :: rest => sumPaidOut rest

/-- Sum of slash amounts retained by the engine (AgentSlashed events). -/
def sumSlashed : List Output → Nat
  | [] => 0
  | Output.AgentSlashed _ n :: rest => n + sumSlashed rest
  | _ :: rest => sumSlashed rest

/-- Number of token transfers out (payouts) in an output list. -/
def countTokenOut : List Output → Nat
  | [] => 0
  | Output.TokenOut _ _ :: rest => 1 + countTokenOut rest
  | _ :: rest => countTokenOut rest

/-- Whether an output is a call into the trade-execution venue. -/
def isVenueCall : Output → Bool
  | Output.ExecuteTrade _ _ _ _ => true
  | _ => false

/-- The deployment world used by the concrete executions below:
deployer (owner) is address 1, vault address 0, clock starts at 0. -/
def w0 : World := { st := initState 1 0, now := 0, log := [] }

/-- Identifier of a proposal on token 7, direction Long, created at time 0
by agent 2. -/
def pidA : ProposalId := ⟨7, TradeDirection.Long, 0, 2⟩


/-- Modelled from the spec, section 4.2, for comparison with checkConsensus:
the pure quorum decision on (forTotal, againstTotal).  Shares are basis
points computed by integer arithmetic; the for side is evaluated first. -/
def quorumDecision (forTotal againstTotal : Nat) : ProposalStatus :=
  let total := forTotal + againstTotal
  if total = 0 then ProposalStatus.Pending
  else if forTotal * 10000 / total ≥ QUORUM_BPS then ProposalStatus.Executed
  else if againstTotal * 10000 / total ≥ QUORUM_BPS then ProposalStatus.Rejected
  else ProposalStatus.Pending

/-- Winner bonus of a settled stake: 5 percent of the amount for a winning
stake (claimRewards lines 215-218), zero for an expired or losing stake. -/
def bonusOf (status : ProposalStatus) (isFor : Bool) (amount : Nat) : Nat :=
  if (status = ProposalStatus.Executed ∧ isFor = true) ∨
     (status = ProposalStatus.Rejected ∧ isFor = false) then
    amount * REWARD_BPS / 10000
  else 0

/-- State after a createProposal call (unchanged when the call reverts). -/
def createStateAfter (s : EngineState) (sender now : Nat) (token : Addr)
    (direction : TradeDirection) (initialStake : Nat) : EngineState :=
  match createProposal s sender now token direction initialStake with
  | .ok r => r.1
  | .error _ => s

/-- State after a stake call (unchanged when the call reverts). -/
def stakeStateAfter (s : EngineState) (sender now : Nat) (pid : ProposalId)
    (amount : Nat) (isFor : Bool) : EngineState :=
  match stake s sender now pid amount isFor with
  | .ok r => r.1
  | .error _ => s

/-- Outputs of a stake call (none when the call reverts). -/
def stakeOutsAfter (s : EngineState) (sender now : Nat) (pid : ProposalId)
    (amount : Nat) (isFor : Bool) : List Output :=
  match stake s sender now pid amount isFor with
  | .ok r => r.2
  | .error _ => []

/-- State after a claimRewards call (unchanged when the call reverts). -/
def claimStateAfter (s : EngineState) (sender now : Nat) (pid : ProposalId) : EngineState :=
  match claimRewards s sender now pid with
  | .ok r => r.1
  | .error _ => s

/-- Outputs of a claimRewards call (none when the call reverts). -/
def claimOutsAfter (s : EngineState) (sender now : Nat) (pid : ProposalId) : List Output :=
  match claimRewards s sender now pid with
  | .ok r => r.2
  | .error _ => []

/-- State after an expireProposal call (unchanged when the call reverts). -/
def expireStateAfter (s : EngineState) (now : Nat) (pid : ProposalId) : EngineState :=
  match expireProposal s now pid with
  | .ok r => r.1
  | .error _ => s

/-- Whether the operation, executed at time now, is a createProposal call
that rederives the identifier pid, and hence rewrites the proposal
storage slot at pid when it succeeds. -/
def collidesWith (op : Op) (now : Nat) (pid : ProposalId) : Bool :=
  match op with
  | Op.createProposalOp sender token dir _ =>
      decide (pid = (⟨token, dir, now, sender⟩ : ProposalId))
  | _ => false

/-- Whether the operation, executed at time now, is a createProposal call by
participant a that rederives pid, and hence rewrites the stake record at
(pid, a) when it succeeds. -/
def collidesWithStake (op : Op) (now : Nat) (pid : ProposalId) (a : Addr) : Bool :=
  match op with
  | Op.createProposalOp sender token dir _ =>
      decide (sender = a) && decide (pid = (⟨token, dir, now, sender⟩ : ProposalId))
  | _ => false

/-- Every staker in the list calls claimRewards once, in order; reverting
calls leave the state unchanged.  Models the settlement phase of a
proposal in which every staker has claimed. -/
def settleAll (now : Nat) (pid : ProposalId) :
    EngineState → List Addr → EngineState × List Output
  | s, [] => (s, [])
  | s, a :: rest =>
    match claimRewards s a now pid with
    | .ok r =>
        let r2 := settleAll now pid r.1 rest
        (r2.1, r.2 ++ r2.2)
    | .error _ => settleAll now pid s rest

/-- Shorthand: the owner (address 1) registers agent a. -/
def regE (a : Addr) : Event := Event.call (Op.registerAgentOp 1 a)

/-- Shorthand: agent a creates a proposal on token t, direction d, initial stake n. -/
def createE (a t : Addr) (d : TradeDirection) (n : Nat) : Event :=
  Event.call (Op.createProposalOp a t d n)

/-- Shorthand: agent a stakes n on proposal pid, side f. -/
def stakeE (a : Addr) (pid : ProposalId) (n : Nat) (f : Bool) : Event :=
  Event.call (Op.stakeOp a pid n f)

/-- Shorthand: agent a claims on proposal pid. -/
def claimE (a : Addr) (pid : ProposalId) : Event := Event.call (Op.claimRewardsOp a pid)

/-- Execution where proposal pidA ends Executed: agent 2 creates with 10000
for, agent 3 stakes 20000 for (for share 100 percent). -/
def esExec : List Event :=
  [regE 2, regE 3, createE 2 7 TradeDirection.Long 10000, stakeE 3 pidA 20000 true]

/-- The state with pidA Executed, stakes unclaimed. -/
def sExec : EngineState := (runW w0 esExec).st

/-- Execution where proposal pidA ends Rejected: agent 2 creates with 10000
for, agent 3 stakes 25000 against (against share 7142 bps). -/
def esRej : List Event :=
  [regE 2, regE 3, createE 2 7 TradeDirection.Long 10000, stakeE 3 pidA 25000 false]

/-- The state with pidA Rejected: agent 2 holds a losing 10000 stake. -/
def sRej : EngineState := (runW w0 esRej).st

/-- Execution where proposal pidA expires: created at time 0, clock advances
to 30, anyone calls expireProposal. -/
def esExp : List Event :=
  [regE 2, createE 2 7 TradeDirection.Long 10000, Event.tick 30,
   Event.call (Op.expireProposalOp pidA)]

/-- The state with pidA Expired, the 10000 creator stake unclaimed. -/
def sExp : EngineState := (runW w0 esExp).st

/-- The state with pidA still Pending (no second stake yet). -/
def sPend : EngineState :=
  (runW w0 [regE 2, regE 3, createE 2 7 TradeDirection.Long 10000]).st

/-- Fixture for the cooldown claim: pidA is Rejected with agent 2 a losing
unclaimed staker, and agent 3 has opened a second, still Pending
proposal on token 8. -/
def sCd : EngineState :=
  (runW w0 [regE 2, regE 3, createE 2 7 TradeDirection.Long 10000,
    stakeE 3 pidA 25000 false, createE 3 8 TradeDirection.Long 100]).st

/-- Identifier of the proposal on token 8 created by agent 3 at time 0. -/
def pidB : ProposalId := ⟨8, TradeDirection.Long, 0, 3⟩

/-- Replay execution: agent 2 calls createProposal twice with the same
token, direction and timestamp; both calls derive the same identifier. -/
def esOverwrite : List Event :=
  [regE 2, createE 2 7 TradeDirection.Long 100, createE 2 7 TradeDirection.Long 50]

/-- Execution reviving a terminal proposal: pidA reaches Executed, then the
creator replays createProposal at the creation timestamp; the collision
resets pidA to Pending with fresh totals. -/
def esRevive : List Event := esExec ++ [createE 2 7 TradeDirection.Long 50]

/-- Execution exhibiting lazy expiry: a proposal is created and the block
timestamp then passes its expiry with no call made. -/
def esLazy : List Event := [regE 2, createE 2 7 TradeDirection.Long 100, Event.tick 30]

/-- Double-claim execution: pidA reaches Executed, agent 2 claims (winner),
then replays createProposal (resetting the stake record), agent 4 pushes
the revived proposal to Executed again, and agent 2 can claim once more. -/
def esDoubleClaim : List Event :=
  [regE 2, regE 3, regE 4, createE 2 7 TradeDirection.Long 10000,
   stakeE 3 pidA 20000 true, claimE 2 pidA,
   createE 2 7 TradeDirection.Long 100, stakeE 4 pidA 300 true]

/-- The error of a reverting call, if any. -/
def errOf {α : Type} : Except Err α → Option Err
  | .error e => some e
  | .ok _ => none

/-- Claim C1, counterexample: in the reachable execution of esExec, proposal
pidA is finalized Executed with stakes 10000 and 20000 (sum 30000); after
both stakers claim, payouts sum to 31500 and no slash is retained, so the
sum of stakes does not equal payouts plus retained slash — settlement
mints the winner bonus. -/
theorem conservation_cex :
    Reachable (runW w0 esExec) ∧
    ((runW w0 esExec).st.proposals pidA).status = ProposalStatus.Executed ∧
    (sExec.stakes pidA 2).amount + (sExec.stakes pidA 3).amount = 30000 ∧
    sumPaidOut (settleAll 0 pidA sExec [2, 3]).2 = 31500 ∧
    sumSlashed (settleAll 0 pidA sExec [2, 3]).2 = 0 ∧
    (30000 : Nat) ≠ 31500 + 0 :=
  ⟨⟨1, 0, 0, esExec, rfl⟩, by decide, by decide, by decide, by decide, by decide⟩

/-- Claim C4, counterexample: in the reachable execution of esDoubleClaim,
agent 2 claims its winning 10000 stake on pidA (payout 10500), the
colliding createProposal then resets the (pidA, 2) stake record, the
revived proposal reaches Executed again, and a further claimRewards call
by agent 2 on the same (proposal, participant) pair succeeds instead of
failing with AlreadyClaimed; counting the extra payout, two payouts are
transferred for the pair. -/
theorem claim_idempotence_cex :
    Reachable (runW w0 esDoubleClaim) ∧
    Output.RewardClaimed 2 pidA 10500 ∈ (runW w0 esDoubleClaim).log ∧
    (claimRewards (runW w0 esDoubleClaim).st 2 0 pidA).isOk = true ∧
    countTokenOut ((runW w0 esDoubleClaim).log ++
      claimOutsAfter (runW w0 esDoubleClaim).st 2 0 pidA) = 2 :=
  ⟨⟨1, 0, 0, esDoubleClaim, rfl⟩, by decide, by decide, by decide⟩

/-- Claim C5, counterexample: in the reachable execution of esExec, pidA is
Executed with for total 30000; the extension esRevive replays
createProposal with the creation tuple of pidA, and the subsequent
operation resets the status to Pending and the for total to 50 — a
terminal status and frozen totals are not preserved by every operation. -/
theorem terminal_frozen_cex :
    Reachable (runW w0 esExec) ∧
    Reachable (runW w0 esRevive) ∧
    ((runW w0 esExec).st.proposals pidA).status = ProposalStatus.Executed ∧
    ((runW w0 esExec).st.proposals pidA).totalStakeFor = 30000 ∧
    ((runW w0 esRevive).st.proposals pidA).status = ProposalStatus.Pending ∧
    ((runW w0 esRevive).st.proposals pidA).totalStakeFor = 50 :=
  ⟨⟨1, 0, 0, esExec, rfl⟩, ⟨1, 0, 0, esRevive, rfl⟩, by decide, by decide, by decide, by decide⟩

/-- Claim C6, counterexample: in the reachable execution of esLazy the block
timestamp reaches 30 with no call made, and the proposal created at time 0
still has status Pending while its expiry 30 is not in the future — the
invariant that a Pending proposal satisfies now < expiresAt fails, because
expiry is enforced lazily. -/
theorem pending_expiry_cex :
    Reachable (runW w0 esLazy) ∧
    ((runW w0 esLazy).st.proposals pidA).status = ProposalStatus.Pending ∧
    ((runW w0 esLazy).st.proposals pidA).expiresAt ≤ (runW w0 esLazy).now :=
  ⟨⟨1, 0, 0, esLazy, rfl⟩, by decide, by decide⟩

/-- Claim C7, counterexample: in the reachable execution of esExec, pidA
transitions to Executed with direction Long, yet the complete output log
contains no call into the trade-execution venue (the call site is
commented out in the source), and the only consensus notification is the
ConsensusReached event carrying proposalId, direction and total for-stake
but no token field. -/
theorem venue_notification_cex :
    Reachable (runW w0 esExec) ∧
    ((runW w0 esExec).st.proposals pidA).status = ProposalStatus.Executed ∧
    ((runW w0 esExec).st.proposals pidA).direction = TradeDirection.Long ∧
    Output.ConsensusReached pidA TradeDirection.Long 30000 ∈ (runW w0 esExec).log ∧
    ((runW w0 esExec).log.all fun o => !isVenueCall o) = true ∧
    (runW w0 esExec).log =
      [Output.AgentRegisteredEv 2, Output.AgentRegisteredEv 3,
       Output.TokenIn 2 10000, Output.ProposalCreated pidA 7 TradeDirection.Long 2,
       Output.StakePlaced pidA 2 10000 true, Output.TokenIn 3 20000,
       Output.StakePlaced pidA 3 20000 true,
       Output.ConsensusReached pidA TradeDirection.Long 30000] :=
  ⟨⟨1, 0, 0, esExec, rfl⟩, by decide, by decide, by decide, by decide, by decide⟩

/-- Claim C8, counterexample: in the reachable execution of esOverwrite,
agent 2 calls createProposal twice with the same token, direction,
timestamp and creator; both calls derive the same identifier, the second
call succeeds (it debits 50 more tokens), and it overwrites the recorded
proposal state (for total 100 becomes 50) and the creator stake (amount
100 becomes 50) — replay within the same logical instant is not
prevented. -/
theorem replay_protection_cex :
    Reachable (runW w0 esOverwrite) ∧
    ((runW w0 [regE 2, createE 2 7 TradeDirection.Long 100]).st.stakes pidA 2).amount = 100 ∧
    ((runW w0 [regE 2, createE 2 7 TradeDirection.Long 100]).st.proposals pidA).totalStakeFor
      = 100 ∧
    Output.TokenIn 2 50 ∈ (runW w0 esOverwrite).log ∧
    ((runW w0 esOverwrite).st.stakes pidA 2).amount = 50 ∧
    ((runW w0 esOverwrite).st.proposals pidA).totalStakeFor = 50 :=
  ⟨⟨1, 0, 0, esOverwrite, rfl⟩, by decide, by decide, by decide, by decide, by decide⟩

/-- Claim C10, counterexample: the existing stake of agent 2 on pidA (amount
100) is modified, to amount 50, by the colliding second createProposal
call of esOverwrite; moreover a second placeStake call on an already
finalized proposal by a participant who already staked fails with
ProposalNotActive, not AlreadyStaked. -/
theorem single_stake_cex :
    Reachable (runW w0 esOverwrite) ∧
    ((runW w0 [regE 2, createE 2 7 TradeDirection.Long 100]).st.stakes pidA 2).amount = 100 ∧
    ((runW w0 esOverwrite).st.stakes pidA 2).amount = 50 ∧
    0 < (sExec.stakes pidA 3).amount ∧
    errOf (stake sExec 3 0 pidA 10 true) = some Err.ProposalNotActive :=
  ⟨⟨1, 0, 0, esOverwrite, rfl⟩, by decide, by decide, by decide, by decide⟩

theorem updFn_same {α β : Type} [DecidableEq α] (m : α → β) (k : α) (v : β) :
    updFn m k v k = v := by
  simp [updFn]

theorem updFn_other {α β : Type} [DecidableEq α] (m : α → β) (k : α) (v : β)
    (x : α) (h : x ≠ k) : updFn m k v x = m x := by
  simp [updFn, h]

theorem checkConsensus_stakes (s : EngineState) (pid : ProposalId) :
    ((checkConsensus s pid).1).stakes = s.stakes := by
  unfold checkConsensus
  dsimp only
  repeat' split
  all_goals rfl

theorem checkConsensus_agents (s : EngineState) (pid : ProposalId) :
    ((checkConsensus s pid).1).agents = s.agents := by
  unfold checkConsensus
  dsimp only
  repeat' split
  all_goals rfl

theorem checkConsensus_proposals_other (s : EngineState) (pid pid2 : ProposalId)
    (h : pid2 ≠ pid) :
    ((checkConsensus s pid).1).proposals pid2 = s.proposals pid2 := by
  unfold checkConsensus
  dsimp only
  repeat' split
  all_goals simp [updFn_other _ _ _ _ h]

theorem checkConsensus_status_of_pending (s : EngineState) (pid : ProposalId)
    (hp : (s.proposals pid).status = ProposalStatus.Pending) :
    (((checkConsensus s pid).1).proposals pid).status =
      quorumDecision (s.proposals pid).totalStakeFor (s.proposals pid).totalStakeAgainst := by
  unfold checkConsensus quorumDecision
  dsimp only
  repeat' split
  all_goals simp_all [updFn_same]

theorem checkConsensus_fields (s : EngineState) (pid : ProposalId) :
    (((checkConsensus s pid).1).proposals pid).totalStakeFor
      = (s.proposals pid).totalStakeFor ∧
    (((checkConsensus s pid).1).proposals pid).totalStakeAgainst
      = (s.proposals pid).totalStakeAgainst ∧
    (((checkConsensus s pid).1).proposals pid).direction = (s.proposals pid).direction ∧
    (((checkConsensus s pid).1).proposals pid).expiresAt = (s.proposals pid).expiresAt := by
  unfold checkConsensus
  dsimp only
  repeat' split
  all_goals simp [updFn_same]

theorem checkConsensus_outs_venue (s : EngineState) (pid : ProposalId) (o : Output)
    (ho : o ∈ (checkConsensus s pid).2) : isVenueCall o = false := by
  unfold checkConsensus at ho
  dsimp only at ho
  repeat' split at ho
  all_goals simp_all [isVenueCall]

theorem checkConsensus_executed_out (s : EngineState) (pid : ProposalId)
    (hp : (s.proposals pid).status = ProposalStatus.Pending)
    (hx : (((checkConsensus s pid).1).proposals pid).status = ProposalStatus.Executed) :
    (checkConsensus s pid).2 =
      [Output.ConsensusReached pid (s.proposals pid).direction
        (s.proposals pid).totalStakeFor] := by
  unfold checkConsensus at hx ⊢
  dsimp only at hx ⊢
  repeat' split at hx
  all_goals repeat' split
  all_goals simp_all [updFn_same]

theorem claimRewards_proposals (s : EngineState) (sender now : Nat) (pid : ProposalId) :
    (claimStateAfter s sender now pid).proposals = s.proposals := by
  rcases hcr : claimRewards s sender now pid with e | r
  · simp [claimStateAfter, hcr]
  · have h1 : claimStateAfter s sender now pid = r.1 := by simp [claimStateAfter, hcr]
    rw [h1]
    unfold claimRewards at hcr
    dsimp only at hcr
    repeat' split at hcr
    all_goals first
      | exact Except.noConfusion hcr
      | (injection hcr with h; subst h; rfl)

theorem claimRewards_stakes_fields (s : EngineState) (sender now : Nat)
    (pidT pid : ProposalId) (a : Addr) :
    ((claimStateAfter s sender now pidT).stakes pid a).amount = (s.stakes pid a).amount ∧
    ((claimStateAfter s sender now pidT).stakes pid a).isFor = (s.stakes pid a).isFor ∧
    ((s.stakes pid a).claimed = true →
      ((claimStateAfter s sender now pidT).stakes pid a).claimed = true) := by
  rcases hcr : claimRewards s sender now pidT with e | r
  · simp [claimStateAfter, hcr]
  · have h1 : claimStateAfter s sender now pidT = r.1 := by simp [claimStateAfter, hcr]
    rw [h1]
    unfold claimRewards at hcr
    dsimp only at hcr
    repeat' split at hcr
    all_goals first
      | exact Except.noConfusion hcr
      | (injection hcr with h; subst h
         dsimp only
         by_cases h2 : pid = pidT
         · subst h2
           by_cases h3 : a = sender
           · subst h3; simp [updFn]
           · simp [updFn, h3]
         · simp [updFn, h2])

theorem slash_lt (a : Nat) (h : 0 < a) : a * SLASH_BPS / 10000 < a := by
  unfold SLASH_BPS
  omega

theorem claimRewards_stakes_other (s : EngineState) (sender now : Nat) (pid : ProposalId)
    (pid2 : ProposalId) (b : Addr) (hd : pid2 ≠ pid ∨ b ≠ sender) :
    (claimStateAfter s sender now pid).stakes pid2 b = s.stakes pid2 b := by
  rcases hcr : claimRewards s sender now pid with e | r
  · simp [claimStateAfter, hcr]
  · have h1 : claimStateAfter s sender now pid = r.1 := by simp [claimStateAfter, hcr]
    rw [h1]
    unfold claimRewards at hcr
    dsimp only at hcr
    repeat' split at hcr
    all_goals first
      | exact Except.noConfusion hcr
      | (injection hcr with h; subst h
         dsimp only
         rcases hd with h2 | h2
         · simp [updFn, h2]
         · by_cases h3 : pid2 = pid
           · subst h3; simp [updFn, h2]
           · simp [updFn, h3])

theorem claimRewards_pending (s : EngineState) (sender now : Nat) (pid : ProposalId)
    (hp : (s.proposals pid).status = ProposalStatus.Pending) :
    claimRewards s sender now pid = Except.error Err.ProposalNotFinalized := by
  unfold claimRewards
  dsimp only
  rw [if_pos hp]

theorem claimRewards_claimed (s : EngineState) (sender now : Nat) (pid : ProposalId)
    (hfin : (s.proposals pid).status ≠ ProposalStatus.Pending)
    (hamt : 0 < (s.stakes pid sender).amount)
    (hcl : (s.stakes pid sender).claimed = true) :
    claimRewards s sender now pid = Except.error Err.AlreadyClaimed := by
  unfold claimRewards
  dsimp only
  rw [if_neg hfin, if_neg (by omega), if_pos hcl]

theorem claimRewards_isOk (s : EngineState) (sender now : Nat) (pid : ProposalId)
    (hfin : (s.proposals pid).status ≠ ProposalStatus.Pending)
    (hamt : 0 < (s.stakes pid sender).amount)
    (hcl : (s.stakes pid sender).claimed = false) :
    (claimRewards s sender now pid).isOk = true := by
  unfold claimRewards
  dsimp only
  rw [if_neg hfin, if_neg (by omega), if_neg (by simp [hcl])]
  repeat' split
  all_goals rfl

theorem claim_sets_claimed (s : EngineState) (sender now : Nat) (pid : ProposalId)
    (hfin : (s.proposals pid).status ≠ ProposalStatus.Pending)
    (hamt : 0 < (s.stakes pid sender).amount)
    (hcl : (s.stakes pid sender).claimed = false) :
    ((claimStateAfter s sender now pid).stakes pid sender).claimed = true := by
  by_cases hw : ((s.proposals pid).status = ProposalStatus.Executed ∧
      (s.stakes pid sender).isFor = true) ∨
      ((s.proposals pid).status = ProposalStatus.Rejected ∧ (s.stakes pid sender).isFor = false)
  · unfold claimStateAfter claimRewards
    dsimp only
    rw [if_neg hfin, if_neg (by omega), if_neg (by simp [hcl]), if_pos hw]
    dsimp only
    simp [updFn]
  · by_cases hexp : (s.proposals pid).status = ProposalStatus.Expired
    · unfold claimStateAfter claimRewards
      dsimp only
      rw [if_neg hfin, if_neg (by omega), if_neg (by simp [hcl]), if_neg hw, if_pos hexp]
      dsimp only
      simp [updFn]
    · unfold claimStateAfter claimRewards
      dsimp only
      rw [if_neg hfin, if_neg (by omega), if_neg (by simp [hcl]), if_neg hw, if_neg hexp]
      dsimp only
      simp [updFn]

theorem claim_outs_shape (s : EngineState) (sender now : Nat) (pid : ProposalId)
    (hfin : (s.proposals pid).status ≠ ProposalStatus.Pending)
    (hamt : 0 < (s.stakes pid sender).amount)
    (hcl : (s.stakes pid sender).claimed = false) :
    countTokenOut (claimOutsAfter s sender now pid) = 1 ∧
    (∀ x n, Output.TokenOut x n ∈ claimOutsAfter s sender now pid → 0 < n) := by
  by_cases hw : ((s.proposals pid).status = ProposalStatus.Executed ∧
      (s.stakes pid sender).isFor = true) ∨
      ((s.proposals pid).status = ProposalStatus.Rejected ∧ (s.stakes pid sender).isFor = false)
  · unfold claimOutsAfter claimRewards
    dsimp only
    rw [if_neg hfin, if_neg (by omega), if_neg (by simp [hcl]), if_pos hw,
      if_pos (Nat.lt_of_lt_of_le hamt (Nat.le_add_right _ _))]
    dsimp only
    refine ⟨by simp [countTokenOut], ?_⟩
    intro x n hmem
    simp at hmem
    omega
  · by_cases hexp : (s.proposals pid).status = ProposalStatus.Expired
    · unfold claimOutsAfter claimRewards
      dsimp only
      rw [if_neg hfin, if_neg (by omega), if_neg (by simp [hcl]), if_neg hw, if_pos hexp,
        if_pos hamt]
      dsimp only
      refine ⟨by simp [countTokenOut], ?_⟩
      intro x n hmem
      simp at hmem
      omega
    · have hsl := slash_lt (s.stakes pid sender).amount hamt
      unfold claimOutsAfter claimRewards
      dsimp only
      rw [if_neg hfin, if_neg (by omega), if_neg (by simp [hcl]), if_neg hw, if_neg hexp,
        if_pos (by omega)]
      dsimp only
      refine ⟨by simp [countTokenOut], ?_⟩
      intro x n hmem
      simp at hmem
      omega

theorem claim_balance (s : EngineState) (sender now : Nat) (pid : ProposalId)
    (hfin : (s.proposals pid).status ≠ ProposalStatus.Pending)
    (hamt : 0 < (s.stakes pid sender).amount)
    (hcl : (s.stakes pid sender).claimed = false) :
    sumPaidOut (claimOutsAfter s sender now pid) + sumSlashed (claimOutsAfter s sender now pid) =
      (s.stakes pid sender).amount +
        bonusOf (s.proposals pid).status (s.stakes pid sender).isFor
          (s.stakes pid sender).amount := by
  by_cases hw : ((s.proposals pid).status = ProposalStatus.Executed ∧
      (s.stakes pid sender).isFor = true) ∨
      ((s.proposals pid).status = ProposalStatus.Rejected ∧ (s.stakes pid sender).isFor = false)
  · unfold claimOutsAfter claimRewards bonusOf
    dsimp only
    rw [if_neg hfin, if_neg (by omega), if_neg (by simp [hcl]), if_pos hw, if_pos hw,
      if_pos (Nat.lt_of_lt_of_le hamt (Nat.le_add_right _ _))]
    dsimp only
    simp [sumPaidOut, sumSlashed]
  · by_cases hexp : (s.proposals pid).status = ProposalStatus.Expired
    · unfold claimOutsAfter claimRewards bonusOf
      dsimp only
      rw [if_neg hfin, if_neg (by omega), if_neg (by simp [hcl]), if_neg hw, if_neg hw,
        if_pos hexp, if_pos hamt]
      dsimp only
      simp [sumPaidOut, sumSlashed]
    · have hsl := slash_lt (s.stakes pid sender).amount hamt
      unfold claimOutsAfter claimRewards bonusOf
      dsimp only
      rw [if_neg hfin, if_neg (by omega), if_neg (by simp [hcl]), if_neg hw, if_neg hw,
        if_neg hexp, if_pos (by omega)]
      dsimp only
      simp [sumPaidOut, sumSlashed]
      omega

theorem stake_not_pending (s : EngineState) (sender now : Nat) (pid : ProposalId)
    (amount : Nat) (isFor : Bool) (hreg : (s.agents sender).registered = true)
    (h : (s.proposals pid).status ≠ ProposalStatus.Pending) :
    stake s sender now pid amount isFor = Except.error Err.ProposalNotActive := by
  unfold stake
  dsimp only
  rw [if_neg (by simp [hreg]), if_pos h]

theorem stake_past_expiry (s : EngineState) (sender now : Nat) (pid : ProposalId)
    (amount : Nat) (isFor : Bool) (hreg : (s.agents sender).registered = true)
    (hp : (s.proposals pid).status = ProposalStatus.Pending)
    (hexp : (s.proposals pid).expiresAt ≤ now) :
    stake s sender now pid amount isFor = Except.error Err.ProposalNotActive := by
  unfold stake
  dsimp only
  rw [if_neg (by simp [hreg]), if_neg (by simp [hp]), if_pos hexp]

theorem stake_already (s : EngineState) (sender now : Nat) (pid : ProposalId)
    (amount : Nat) (isFor : Bool) (hreg : (s.agents sender).registered = true)
    (hp : (s.proposals pid).status = ProposalStatus.Pending)
    (hexp : now < (s.proposals pid).expiresAt)
    (hprev : 0 < (s.stakes pid sender).amount) :
    stake s sender now pid amount isFor = Except.error Err.AlreadyStaked := by
  unfold stake
  dsimp only
  rw [if_neg (by simp [hreg]), if_neg (by simp [hp]), if_neg (by omega), if_pos hprev]

theorem stake_isOk (s : EngineState) (sender now : Nat) (pid : ProposalId)
    (amount : Nat) (isFor : Bool) (hreg : (s.agents sender).registered = true)
    (hp : (s.proposals pid).status = ProposalStatus.Pending)
    (hexp : now < (s.proposals pid).expiresAt)
    (hno : (s.stakes pid sender).amount = 0) (hz : amount ≠ 0) :
    (stake s sender now pid amount isFor).isOk = true := by
  unfold stake
  dsimp only
  rw [if_neg (by simp [hreg]), if_neg (by simp [hp]), if_neg (by omega), if_neg (by omega),
    if_neg hz]
  rfl

theorem stake_self_already (s : EngineState) (b now : Nat) (pid : ProposalId)
    (amount : Nat) (isFor : Bool) (hamt : 0 < (s.stakes pid b).amount) :
    stakeStateAfter s b now pid amount isFor = s := by
  rcases hcr : stake s b now pid amount isFor with e | r
  · simp [stakeStateAfter, hcr]
  · exfalso
    unfold stake at hcr
    dsimp only at hcr
    repeat' split at hcr
    all_goals first
      | exact Except.noConfusion hcr
      | omega

theorem stake_proposals_frame (s : EngineState) (sender now : Nat) (pidT : ProposalId)
    (amount : Nat) (isFor : Bool) (pid : ProposalId) (h : pid ≠ pidT) :
    (stakeStateAfter s sender now pidT amount isFor).proposals pid = s.proposals pid := by
  rcases hcr : stake s sender now pidT amount isFor with e | r
  · simp [stakeStateAfter, hcr]
  · have h1 : stakeStateAfter s sender now pidT amount isFor = r.1 := by
      simp [stakeStateAfter, hcr]
    rw [h1]
    unfold stake at hcr
    dsimp only at hcr
    repeat' split at hcr
    all_goals first
      | exact Except.noConfusion hcr
      | (injection hcr with h2; subst h2
         dsimp only
         rw [checkConsensus_proposals_other _ _ _ h]
         simp [updFn, h])

theorem stake_stakes_frame (s : EngineState) (sender now : Nat) (pidT : ProposalId)
    (amount : Nat) (isFor : Bool) (pid : ProposalId) (b : Addr)
    (hd : pid ≠ pidT ∨ b ≠ sender) :
    (stakeStateAfter s sender now pidT amount isFor).stakes pid b = s.stakes pid b := by
  rcases hcr : stake s sender now pidT amount isFor with e | r
  · simp [stakeStateAfter, hcr]
  · have h1 : stakeStateAfter s sender now pidT amount isFor = r.1 := by
      simp [stakeStateAfter, hcr]
    rw [h1]
    unfold stake at hcr
    dsimp only at hcr
    repeat' split at hcr
    all_goals first
      | exact Except.noConfusion hcr
      | (injection hcr with h2; subst h2
         dsimp only
         rw [checkConsensus_stakes]
         dsimp only
         rcases hd with h3 | h3
         · simp [updFn, h3]
         · by_cases h4 : pid = pidT
           · subst h4; simp [updFn, h3]
           · simp [updFn, h4])

theorem createProposal_cooldown (s : EngineState) (sender now : Nat) (token : Addr)
    (dir : TradeDirection) (amt : Nat) (hreg : (s.agents sender).registered = true)
    (hcd : now < (s.agents sender).cooldownUntil) :
    createProposal s sender now token dir amt = Except.error Err.AgentOnCooldown := by
  unfold createProposal
  dsimp only
  rw [if_neg (by simp [hreg]), if_pos hcd]

theorem createProposal_no_cooldown (s : EngineState) (sender now : Nat) (token : Addr)
    (dir : TradeDirection) (amt : Nat) (hcd : (s.agents sender).cooldownUntil ≤ now) :
    createProposal s sender now token dir amt ≠ Except.error Err.AgentOnCooldown := by
  unfold createProposal
  dsimp only
  split
  · simp
  · rw [if_neg (by omega)]
    split
    · simp
    · simp

theorem createProposal_proposals_frame (s : EngineState) (sender now : Nat) (token : Addr)
    (dir : TradeDirection) (amt : Nat) (pid : ProposalId)
    (h : pid ≠ (⟨token, dir, now, sender⟩ : ProposalId)) :
    (createStateAfter s sender now token dir amt).proposals pid = s.proposals pid := by
  rcases hcr : createProposal s sender now token dir amt with e | r
  · simp [createStateAfter, hcr]
  · have h1 : createStateAfter s sender now token dir amt = r.1 := by
      simp [createStateAfter, hcr]
    rw [h1]
    unfold createProposal at hcr
    dsimp only at hcr
    repeat' split at hcr
    all_goals first
      | exact Except.noConfusion hcr
      | (injection hcr with h2; subst h2
         dsimp only
         simp [updFn, h])

theorem createProposal_stakes_frame (s : EngineState) (sender now : Nat) (token : Addr)
    (dir : TradeDirection) (amt : Nat) (pid : ProposalId) (b : Addr)
    (hd : pid ≠ (⟨token, dir, now, sender⟩ : ProposalId) ∨ b ≠ sender) :
    (createStateAfter s sender now token dir amt).stakes pid b = s.stakes pid b := by
  rcases hcr : createProposal s sender now token dir amt with e | r
  · simp [createStateAfter, hcr]
  · have h1 : createStateAfter s sender now token dir amt = r.1 := by
      simp [createStateAfter, hcr]
    rw [h1]
    unfold createProposal at hcr
    dsimp only at hcr
    repeat' split at hcr
    all_goals first
      | exact Except.noConfusion hcr
      | (injection hcr with h2; subst h2
         dsimp only
         rcases hd with h3 | h3
         · simp [updFn, h3]
         · by_cases h4 : pid = (⟨token, dir, now, sender⟩ : ProposalId)
           · subst h4; simp [updFn, h3]
           · simp [updFn, h4])

theorem createProposal_writes (s : EngineState) (sender now : Nat) (token : Addr)
    (dir : TradeDirection) (amt : Nat)
    (hok : (createProposal s sender now token dir amt).isOk = true) :
    (createStateAfter s sender now token dir amt).proposals ⟨token, dir, now, sender⟩ =
      { id := ⟨token, dir, now, sender⟩, token := token, direction := dir, createdAt := now,
        expiresAt := now + PROPOSAL_TIMEOUT, totalStakeFor := amt, totalStakeAgainst := 0,
        status := ProposalStatus.Pending, creator := sender } ∧
    (createStateAfter s sender now token dir amt).stakes ⟨token, dir, now, sender⟩ sender =
      ⟨amt, true, false⟩ := by
  rcases hcr : createProposal s sender now token dir amt with e | r
  · rw [hcr] at hok
    exact absurd hok (by simp [Except.isOk, Except.toBool])
  · have h1 : createStateAfter s sender now token dir amt = r.1 := by
      simp [createStateAfter, hcr]
    rw [h1]
    unfold createProposal at hcr
    dsimp only at hcr
    repeat' split at hcr
    all_goals first
      | exact Except.noConfusion hcr
      | (injection hcr with h2; subst h2
         dsimp only
         simp [updFn])

theorem expire_not_pending (s : EngineState) (now : Nat) (pid : ProposalId)
    (h : (s.proposals pid).status ≠ ProposalStatus.Pending) :
    expireProposal s now pid = Except.error Err.ProposalNotActive := by
  unfold expireProposal
  dsimp only
  rw [if_pos h]

theorem expire_ok (s : EngineState) (now : Nat) (pid : ProposalId)
    (hp : (s.proposals pid).status = ProposalStatus.Pending)
    (hexp : (s.proposals pid).expiresAt ≤ now) :
    (expireProposal s now pid).isOk = true ∧
    ((expireStateAfter s now pid).proposals pid).status = ProposalStatus.Expired := by
  unfold expireProposal expireStateAfter expireProposal
  dsimp only
  rw [if_neg (by simp [hp]), if_neg (by omega)]
  exact ⟨rfl, by simp [updFn]⟩

theorem expire_proposals_frame (s : EngineState) (now : Nat) (pidT pid : ProposalId)
    (h : pid ≠ pidT) :
    (expireStateAfter s now pidT).proposals pid = s.proposals pid := by
  rcases hcr : expireProposal s now pidT with e | r
  · simp [expireStateAfter, hcr]
  · have h1 : expireStateAfter s now pidT = r.1 := by simp [expireStateAfter, hcr]
    rw [h1]
    unfold expireProposal at hcr
    dsimp only at hcr
    repeat' split at hcr
    all_goals first
      | exact Except.noConfusion hcr
      | (injection hcr with h2; subst h2
         dsimp only
         simp [updFn, h])

theorem expire_stakes (s : EngineState) (now : Nat) (pid : ProposalId) :
    (expireStateAfter s now pid).stakes = s.stakes := by
  rcases hcr : expireProposal s now pid with e | r
  · simp [expireStateAfter, hcr]
  · have h1 : expireStateAfter s now pid = r.1 := by simp [expireStateAfter, hcr]
    rw [h1]
    unfold expireProposal at hcr
    dsimp only at hcr
    repeat' split at hcr
    all_goals first
      | exact Except.noConfusion hcr
      | (injection hcr with h2; subst h2; rfl)

theorem applyOp_create (s : EngineState) (now : Nat) (sender token : Addr)
    (dir : TradeDirection) (amt : Nat) :
    (applyOp s now (Op.createProposalOp sender token dir amt)).1 =
      createStateAfter s sender now token dir amt := by
  unfold applyOp createStateAfter
  dsimp only
  rcases createProposal s sender now token dir amt with e | ⟨s1, p, outs⟩ <;> rfl

theorem applyOp_stake (s : EngineState) (now : Nat) (sender : Addr) (pid : ProposalId)
    (amount : Nat) (isFor : Bool) :
    (applyOp s now (Op.stakeOp sender pid amount isFor)).1 =
      stakeStateAfter s sender now pid amount isFor := by
  unfold applyOp stakeStateAfter
  dsimp only
  rcases stake s sender now pid amount isFor with e | ⟨s1, outs⟩ <;> rfl

theorem applyOp_claim (s : EngineState) (now : Nat) (sender : Addr) (pid : ProposalId) :
    (applyOp s now (Op.claimRewardsOp sender pid)).1 = claimStateAfter s sender now pid := by
  unfold applyOp claimStateAfter
  dsimp only
  rcases claimRewards s sender now pid with e | ⟨s1, outs⟩ <;> rfl

theorem applyOp_expire (s : EngineState) (now : Nat) (pid : ProposalId) :
    (applyOp s now (Op.expireProposalOp pid)).1 = expireStateAfter s now pid := by
  unfold applyOp expireStateAfter
  dsimp only
  rcases expireProposal s now pid with e | ⟨s1, outs⟩ <;> rfl

theorem applyOp_register_proposals (s : EngineState) (now : Nat) (sender a : Addr) :
    (applyOp s now (Op.registerAgentOp sender a)).1.proposals = s.proposals ∧
    (applyOp s now (Op.registerAgentOp sender a)).1.stakes = s.stakes := by
  unfold applyOp
  dsimp only
  rcases hcr : registerAgent s sender a with e | r
  · exact ⟨rfl, rfl⟩
  · dsimp only
    unfold registerAgent at hcr
    dsimp only at hcr
    repeat' split at hcr
    all_goals first
      | exact Except.noConfusion hcr
      | (injection hcr with h2; subst h2; exact ⟨rfl, rfl⟩)

theorem applyOp_setVault_proposals (s : EngineState) (now : Nat) (sender v : Addr) :
    (applyOp s now (Op.setVaultOp sender v)).1.proposals = s.proposals ∧
    (applyOp s now (Op.setVaultOp sender v)).1.stakes = s.stakes := by
  unfold applyOp
  dsimp only
  rcases hcr : setVault s sender v with e | r
  · exact ⟨rfl, rfl⟩
  · unfold setVault at hcr
    repeat' split at hcr
    all_goals first
      | exact Except.noConfusion hcr
      | (injection hcr with h2; subst h2; exact ⟨rfl, rfl⟩)

theorem applyOp_renounce_proposals (s : EngineState) (now : Nat) (sender : Addr) :
    (applyOp s now (Op.renounceOwnershipOp sender)).1.proposals = s.proposals ∧
    (applyOp s now (Op.renounceOwnershipOp sender)).1.stakes = s.stakes := by
  unfold applyOp
  dsimp only
  rcases hcr : renounceOwnership s sender with e | r
  · exact ⟨rfl, rfl⟩
  · unfold renounceOwnership at hcr
    repeat' split at hcr
    all_goals first
      | exact Except.noConfusion hcr
      | (injection hcr with h2; subst h2; exact ⟨rfl, rfl⟩)

theorem stake_ok_dissect (s : EngineState) (sender now : Nat) (pid : ProposalId)
    (amount : Nat) (isFor : Bool)
    (hok : (stake s sender now pid amount isFor).isOk = true) :
    ∃ s1 : EngineState,
      (s1.proposals pid).status = ProposalStatus.Pending ∧
      (s1.proposals pid).totalStakeFor =
        (s.proposals pid).totalStakeFor + (if isFor then amount else 0) ∧
      (s1.proposals pid).totalStakeAgainst =
        (s.proposals pid).totalStakeAgainst + (if isFor then 0 else amount) ∧
      (s1.proposals pid).direction = (s.proposals pid).direction ∧
      stakeStateAfter s sender now pid amount isFor = (checkConsensus s1 pid).1 ∧
      stakeOutsAfter s sender now pid amount isFor =
        [Output.TokenIn sender amount, Output.StakePlaced pid sender amount isFor]
          ++ (checkConsensus s1 pid).2 := by
  by_cases hreg : (s.agents sender).registered = true
  case neg =>
    exfalso
    unfold stake at hok
    rw [if_pos hreg] at hok
    simp [Except.isOk, Except.toBool] at hok
  have hregc : ¬ ¬ (s.agents sender).registered = true := not_not_intro hreg
  by_cases hp : (s.proposals pid).status = ProposalStatus.Pending
  case neg =>
    exfalso
    unfold stake at hok
    dsimp only at hok
    rw [if_neg hregc, if_pos hp] at hok
    simp [Except.isOk, Except.toBool] at hok
  have hpc : ¬ (s.proposals pid).status ≠ ProposalStatus.Pending := not_not_intro hp
  by_cases hexp : (s.proposals pid).expiresAt ≤ now
  · exfalso
    unfold stake at hok
    dsimp only at hok
    rw [if_neg hregc, if_neg hpc, if_pos hexp] at hok
    simp [Except.isOk, Except.toBool] at hok
  by_cases hprev : 0 < (s.stakes pid sender).amount
  · exfalso
    unfold stake at hok
    dsimp only at hok
    rw [if_neg hregc, if_neg hpc, if_neg hexp, if_pos hprev] at hok
    simp [Except.isOk, Except.toBool] at hok
  by_cases hz : amount = 0
  · exfalso
    unfold stake at hok
    dsimp only at hok
    rw [if_neg hregc, if_neg hpc, if_neg hexp, if_neg hprev, if_pos hz] at hok
    simp [Except.isOk, Except.toBool] at hok
  cases isFor
  all_goals
    unfold stakeStateAfter stakeOutsAfter stake
  all_goals
    dsimp only
  all_goals
    rw [if_neg hregc, if_neg hpc, if_neg hexp, if_neg hprev, if_neg hz]
  all_goals
    dsimp only
  all_goals
    refine ⟨_, ?_, ?_, ?_, ?_, rfl, rfl⟩ <;> simp [updFn, hp]

theorem stake_nonpending_noop (s : EngineState) (sender now : Nat) (pid : ProposalId)
    (amount : Nat) (isFor : Bool)
    (hterm : (s.proposals pid).status ≠ ProposalStatus.Pending) :
    stakeStateAfter s sender now pid amount isFor = s := by
  rcases hcr : stake s sender now pid amount isFor with e | r
  · simp [stakeStateAfter, hcr]
  · exfalso
    unfold stake at hcr
    dsimp only at hcr
    repeat' split at hcr
    all_goals first
      | exact Except.noConfusion hcr
      | simp_all

theorem applyOp_proposals_frame (s : EngineState) (now : Nat) (pid : ProposalId) (op : Op)
    (hterm : (s.proposals pid).status ≠ ProposalStatus.Pending)
    (hnc : collidesWith op now pid = false) :
    (applyOp s now op).1.proposals pid = s.proposals pid := by
  cases op with
  | createProposalOp sender token dir amt =>
      rw [applyOp_create]
      simp only [collidesWith, decide_eq_false_iff_not] at hnc
      exact createProposal_proposals_frame s sender now token dir amt pid hnc
  | stakeOp sender pidT amount isFor =>
      rw [applyOp_stake]
      by_cases hpt : pid = pidT
      · subst hpt
        rw [stake_nonpending_noop s sender now pid amount isFor hterm]
      · exact stake_proposals_frame s sender now pidT amount isFor pid hpt
  | claimRewardsOp sender pidT =>
      rw [applyOp_claim, claimRewards_proposals]
  | expireProposalOp pidT =>
      rw [applyOp_expire]
      by_cases hpt : pid = pidT
      · subst hpt
        simp [expireStateAfter, expire_not_pending s now pid hterm]
      · exact expire_proposals_frame s now pidT pid hpt
  | registerAgentOp sender a => exact congrFun (applyOp_register_proposals s now sender a).1 pid
  | setVaultOp sender v => exact congrFun (applyOp_setVault_proposals s now sender v).1 pid
  | renounceOwnershipOp sender =>
      exact congrFun (applyOp_renounce_proposals s now sender).1 pid

theorem applyOp_stakes_frame (s : EngineState) (now : Nat) (pid : ProposalId) (a : Addr)
    (op : Op) (hamt : 0 < (s.stakes pid a).amount)
    (hnc : collidesWithStake op now pid a = false) :
    ((applyOp s now op).1.stakes pid a).amount = (s.stakes pid a).amount ∧
    ((applyOp s now op).1.stakes pid a).isFor = (s.stakes pid a).isFor ∧
    ((s.stakes pid a).claimed = true → ((applyOp s now op).1.stakes pid a).claimed = true) := by
  cases op with
  | createProposalOp sender token dir amt =>
      rw [applyOp_create]
      simp only [collidesWithStake, Bool.and_eq_false_iff, decide_eq_false_iff_not] at hnc
      have hd : pid ≠ (⟨token, dir, now, sender⟩ : ProposalId) ∨ a ≠ sender := by
        rcases hnc with h | h
        · exact Or.inr fun he => h he.symm
        · exact Or.inl h
      rw [createProposal_stakes_frame s sender now token dir amt pid a hd]
      exact ⟨rfl, rfl, fun h => h⟩
  | stakeOp sender pidT amount isFor =>
      rw [applyOp_stake]
      by_cases hpt : pid = pidT
      · by_cases has : a = sender
        · subst hpt; subst has
          rw [stake_self_already s a now pid amount isFor hamt]
          exact ⟨rfl, rfl, fun h => h⟩
        · rw [stake_stakes_frame s sender now pidT amount isFor pid a (Or.inr has)]
          exact ⟨rfl, rfl, fun h => h⟩
      · rw [stake_stakes_frame s sender now pidT amount isFor pid a (Or.inl hpt)]
        exact ⟨rfl, rfl, fun h => h⟩
  | claimRewardsOp sender pidT =>
      rw [applyOp_claim]
      exact claimRewards_stakes_fields s sender now pidT pid a
  | expireProposalOp pidT =>
      rw [applyOp_expire, expire_stakes]
      exact ⟨rfl, rfl, fun h => h⟩
  | registerAgentOp sender b =>
      rw [(applyOp_register_proposals s now sender b).2]
      exact ⟨rfl, rfl, fun h => h⟩
  | setVaultOp sender v =>
      rw [(applyOp_setVault_proposals s now sender v).2]
      exact ⟨rfl, rfl, fun h => h⟩
  | renounceOwnershipOp sender =>
      rw [(applyOp_renounce_proposals s now sender).2]
      exact ⟨rfl, rfl, fun h => h⟩

theorem sumPaidOut_append (l1 l2 : List Output) :
    sumPaidOut (l1 ++ l2) = sumPaidOut l1 + sumPaidOut l2 := by
  induction l1 with
  | nil => simp [sumPaidOut]
  | cons o t ih => cases o <;> simp [sumPaidOut, ih] <;> omega

theorem sumSlashed_append (l1 l2 : List Output) :
    sumSlashed (l1 ++ l2) = sumSlashed l1 + sumSlashed l2 := by
  induction l1 with
  | nil => simp [sumSlashed]
  | cons o t ih => cases o <;> simp [sumSlashed, ih] <;> omega

/-- Claim C1 (amended): settlement does not conserve value as the claim
states.  For every finalized proposal, when every staker claims once, the
sum of payouts plus the retained slash amounts equals the sum of the
stake amounts plus the winners bonuses (5 percent of each winning
stake): the bonus is minted by settlement, so the stated conservation
fails exactly when some winner bonus is positive, as the counterexample
shows. -/
theorem settlement_balance (now : Nat) (pid : ProposalId) (stakers : List Addr) :
    ∀ s : EngineState, stakers.Nodup →
      (s.proposals pid).status ≠ ProposalStatus.Pending →
      (∀ a ∈ stakers, 0 < (s.stakes pid a).amount ∧ (s.stakes pid a).claimed = false) →
      sumPaidOut (settleAll now pid s stakers).2 + sumSlashed (settleAll now pid s stakers).2 =
        (stakers.map fun a => (s.stakes pid a).amount).sum +
        (stakers.map fun a => bonusOf (s.proposals pid).status (s.stakes pid a).isFor
          (s.stakes pid a).amount).sum := by
  induction stakers with
  | nil =>
    intro s _ _ _
    simp [settleAll, sumPaidOut, sumSlashed]
  | cons a t ih =>
    intro s hnd hfin hall
    have ha := hall a (List.mem_cons_self a t)
    rcases hcr : claimRewards s a now pid with e | r
    · have hqq := claimRewards_isOk s a now pid hfin ha.1 ha.2
      rw [hcr] at hqq
      simp [Except.isOk, Except.toBool] at hqq
    · have hsa : claimStateAfter s a now pid = r.1 := by simp [claimStateAfter, hcr]
      have hoa : claimOutsAfter s a now pid = r.2 := by simp [claimOutsAfter, hcr]
      have hstep : settleAll now pid s (a :: t) =
          ((settleAll now pid r.1 t).1, r.2 ++ (settleAll now pid r.1 t).2) := by
        simp [settleAll, hcr]
      rw [hstep]
      dsimp only
      rw [sumPaidOut_append, sumSlashed_append]
      have hprop : r.1.proposals = s.proposals := by
        rw [← hsa]
        exact claimRewards_proposals s a now pid
      have hst : ∀ b ∈ t, r.1.stakes pid b = s.stakes pid b := by
        intro b hb
        have hba : b ≠ a := fun he => (List.nodup_cons.mp hnd).1 (he ▸ hb)
        rw [← hsa]
        exact claimRewards_stakes_other s a now pid pid b (Or.inr hba)
      have ih2 := ih r.1 (List.nodup_cons.mp hnd).2
        (by rw [hprop]; exact hfin)
        (by intro b hb; rw [hst b hb]; exact hall b (List.mem_cons_of_mem a hb))
      have hm1 : (t.map fun b => (r.1.stakes pid b).amount) =
          t.map fun b => (s.stakes pid b).amount :=
        List.map_congr_left fun b hb => by rw [hst b hb]
      have hm2 : (t.map fun b => bonusOf (r.1.proposals pid).status (r.1.stakes pid b).isFor
            (r.1.stakes pid b).amount) =
          t.map fun b => bonusOf (s.proposals pid).status (s.stakes pid b).isFor
            (s.stakes pid b).amount :=
        List.map_congr_left fun b hb => by rw [hst b hb, hprop]
      rw [hm1, hm2] at ih2
      have hbal := claim_balance s a now pid hfin ha.1 ha.2
      rw [hoa] at hbal
      simp only [List.map_cons, List.sum_cons]
      omega

theorem applyOp_venue_free (s : EngineState) (now : Nat) (op : Op) (o : Output)
    (ho : o ∈ (applyOp s now op).2) : isVenueCall o = false := by
  cases o
  case ExecuteTrade pid2 ti to2 ai =>
    exfalso
    cases op with
    | createProposalOp sender token dir amt =>
        revert ho
        unfold applyOp
        dsimp only
        rcases hcr : createProposal s sender now token dir amt with e | r
        · intro ho; simp at ho
        · dsimp only
          unfold createProposal at hcr
          dsimp only at hcr
          repeat' split at hcr
          all_goals first
            | exact Except.noConfusion hcr
            | (injection hcr with h2; subst h2; intro ho; simp at ho)
    | stakeOp sender pid amount isFor =>
        revert ho
        unfold applyOp
        dsimp only
        rcases hcr : stake s sender now pid amount isFor with e | r
        · intro ho; simp at ho
        · dsimp only
          unfold stake at hcr
          dsimp only at hcr
          repeat' split at hcr
          all_goals first
            | exact Except.noConfusion hcr
            | (injection hcr with h2; subst h2; intro ho; simp at ho
               have hv := checkConsensus_outs_venue _ pid _ ho
               simp [isVenueCall] at hv)
    | claimRewardsOp sender pid =>
        revert ho
        unfold applyOp
        dsimp only
        rcases hcr : claimRewards s sender now pid with e | r
        · intro ho; simp at ho
        · dsimp only
          unfold claimRewards at hcr
          dsimp only at hcr
          repeat' split at hcr
          all_goals first
            | exact Except.noConfusion hcr
            | (injection hcr with h2; subst h2; intro ho
               dsimp only at ho
               simp at ho)
    | expireProposalOp pid =>
        revert ho
        unfold applyOp
        dsimp only
        rcases hcr : expireProposal s now pid with e | r
        · intro ho; simp at ho
        · dsimp only
          unfold expireProposal at hcr
          dsimp only at hcr
          repeat' split at hcr
          all_goals first
            | exact Except.noConfusion hcr
            | (injection hcr with h2; subst h2; intro ho; simp at ho)
    | registerAgentOp sender a =>
        revert ho
        unfold applyOp
        dsimp only
        rcases hcr : registerAgent s sender a with e | r
        · intro ho; simp at ho
        · dsimp only
          unfold registerAgent at hcr
          dsimp only at hcr
          repeat' split at hcr
          all_goals first
            | exact Except.noConfusion hcr
            | (injection hcr with h2; subst h2; intro ho; simp at ho)
    | setVaultOp sender v =>
        revert ho
        unfold applyOp
        dsimp only
        rcases hcr : setVault s sender v with e | r
        · intro ho; simp at ho
        · dsimp only
          unfold setVault at hcr
          repeat' split at hcr
          all_goals first
            | exact Except.noConfusion hcr
            | (injection hcr with h2; subst h2; intro ho; simp at ho)
    | renounceOwnershipOp sender =>
        revert ho
        unfold applyOp
        dsimp only
        rcases hcr : renounceOwnership s sender with e | r
        · intro ho; simp at ho
        · dsimp only
          unfold renounceOwnership at hcr
          repeat' split at hcr
          all_goals first
            | exact Except.noConfusion hcr
            | (injection hcr with h2; subst h2; intro ho; simp at ho)
  all_goals rfl

/-- Helper: a losing claim sets the agents cooldown to now plus
COOLDOWN_PERIOD and leaves the registration flag unchanged. -/
theorem claim_loser_agent (s : EngineState) (sender now : Nat) (pid : ProposalId)
    (hfin : (s.proposals pid).status ≠ ProposalStatus.Pending)
    (hamt : 0 < (s.stakes pid sender).amount)
    (hcl : (s.stakes pid sender).claimed = false)
    (hw : ¬ (((s.proposals pid).status = ProposalStatus.Executed ∧
        (s.stakes pid sender).isFor = true) ∨
        ((s.proposals pid).status = ProposalStatus.Rejected ∧
          (s.stakes pid sender).isFor = false)))
    (hexp : (s.proposals pid).status ≠ ProposalStatus.Expired) :
    ((claimStateAfter s sender now pid).agents sender).cooldownUntil
      = now + COOLDOWN_PERIOD ∧
    ((claimStateAfter s sender now pid).agents sender).registered
      = (s.agents sender).registered := by
  unfold claimStateAfter claimRewards
  dsimp only
  rw [if_neg hfin, if_neg (by omega), if_neg (by simp [hcl]), if_neg hw, if_neg hexp]
  dsimp only
  simp [updFn]

/-- Claim C2: the quorum decision applied by each successful stake mutation:
the new status of the proposal equals the pure decision rule on the
updated totals, where the rule on (forTotal, againstTotal) is: no
decision when the total is zero; Executed when the for share in basis
points (computed as x * 10000 / total) reaches 66.00 percent, evaluated
first and hence taking priority; else Rejected when the against share
reaches 66.00 percent; else Pending. -/
theorem quorum_decision_rule (s : EngineState) (sender now : Nat) (pid : ProposalId)
    (amount : Nat) (isFor : Bool)
    (hok : (stake s sender now pid amount isFor).isOk = true) :
    ((stakeStateAfter s sender now pid amount isFor).proposals pid).status =
      quorumDecision ((s.proposals pid).totalStakeFor + (if isFor then amount else 0))
        ((s.proposals pid).totalStakeAgainst + (if isFor then 0 else amount)) ∧
    (∀ f a, f + a = 0 → quorumDecision f a = ProposalStatus.Pending) ∧
    (∀ f a, f + a ≠ 0 → f * 10000 / (f + a) ≥ QUORUM_BPS →
      quorumDecision f a = ProposalStatus.Executed) ∧
    (∀ f a, f + a ≠ 0 → ¬ f * 10000 / (f + a) ≥ QUORUM_BPS →
      a * 10000 / (f + a) ≥ QUORUM_BPS → quorumDecision f a = ProposalStatus.Rejected) ∧
    (∀ f a, f + a ≠ 0 → ¬ f * 10000 / (f + a) ≥ QUORUM_BPS →
      ¬ a * 10000 / (f + a) ≥ QUORUM_BPS → quorumDecision f a = ProposalStatus.Pending) := by
  refine ⟨?_, ?_, ?_, ?_, ?_⟩
  · obtain ⟨s1, hp1, hf, ha, hdir, hst, houts⟩ :=
      stake_ok_dissect s sender now pid amount isFor hok
    rw [hst, checkConsensus_status_of_pending s1 pid hp1, hf, ha]
  · intro f a h
    unfold quorumDecision
    rw [if_pos h]
  · intro f a h1 h2
    unfold quorumDecision
    dsimp only
    rw [if_neg h1, if_pos h2]
  · intro f a h1 h2 h3
    unfold quorumDecision
    dsimp only
    rw [if_neg h1, if_neg h2, if_pos h3]
  · intro f a h1 h2 h3
    unfold quorumDecision
    dsimp only
    rw [if_neg h1, if_neg h2, if_neg h3]

/-- Claim C3: settlement payouts.  For a finalized proposal and an unclaimed
stake of amount a: a winner (Executed and staked for, or Rejected and
staked against) is paid a plus 5 percent of a and the win count
increments (losses and cooldown untouched); on an Expired proposal the
payout is exactly a with no counter or cooldown change; otherwise the
staker is a loser, is paid a minus 10 percent of a, and the loss count
increments with the cooldown set.  At a = 10000 the loser payout is 9000
and the winner payout is 10500 (see the witness). -/
theorem settlement_payouts (s : EngineState) (sender now : Nat) (pid : ProposalId)
    (hfin : (s.proposals pid).status ≠ ProposalStatus.Pending)
    (hamt : 0 < (s.stakes pid sender).amount)
    (hcl : (s.stakes pid sender).claimed = false) :
    (claimRewards s sender now pid).isOk = true ∧
    ((((s.proposals pid).status = ProposalStatus.Executed ∧ (s.stakes pid sender).isFor = true) ∨
      ((s.proposals pid).status = ProposalStatus.Rejected ∧ (s.stakes pid sender).isFor = false)) →
      claimOutsAfter s sender now pid =
        [Output.RewardClaimed sender pid
          ((s.stakes pid sender).amount + (s.stakes pid sender).amount * REWARD_BPS / 10000),
         Output.TokenOut sender
          ((s.stakes pid sender).amount + (s.stakes pid sender).amount * REWARD_BPS / 10000)] ∧
      ((claimStateAfter s sender now pid).agents sender).wins = (s.agents sender).wins + 1 ∧
      ((claimStateAfter s sender now pid).agents sender).losses = (s.agents sender).losses ∧
      ((claimStateAfter s sender now pid).agents sender).cooldownUntil
        = (s.agents sender).cooldownUntil) ∧
    ((s.proposals pid).status = ProposalStatus.Expired →
      claimOutsAfter s sender now pid = [Output.TokenOut sender (s.stakes pid sender).amount] ∧
      (claimStateAfter s sender now pid).agents = s.agents) ∧
    (¬ (((s.proposals pid).status = ProposalStatus.Executed ∧
          (s.stakes pid sender).isFor = true) ∨
        ((s.proposals pid).status = ProposalStatus.Rejected ∧
          (s.stakes pid sender).isFor = false)) →
      (s.proposals pid).status ≠ ProposalStatus.Expired →
      claimOutsAfter s sender now pid =
        [Output.AgentSlashed sender ((s.stakes pid sender).amount * SLASH_BPS / 10000),
         Output.TokenOut sender
          ((s.stakes pid sender).amount - (s.stakes pid sender).amount * SLASH_BPS / 10000)] ∧
      ((claimStateAfter s sender now pid).agents sender).losses = (s.agents sender).losses + 1 ∧
      ((claimStateAfter s sender now pid).agents sender).wins = (s.agents sender).wins ∧
      ((claimStateAfter s sender now pid).agents sender).cooldownUntil
        = now + COOLDOWN_PERIOD) := by
  refine ⟨claimRewards_isOk s sender now pid hfin hamt hcl, ?_, ?_, ?_⟩
  · intro hw
    unfold claimOutsAfter claimStateAfter claimRewards
    dsimp only
    rw [if_neg hfin, if_neg (by omega), if_neg (by simp [hcl]), if_pos hw,
      if_pos (Nat.lt_of_lt_of_le hamt (Nat.le_add_right _ _))]
    dsimp only
    simp [updFn]
  · intro hexp
    have hw : ¬ (((s.proposals pid).status = ProposalStatus.Executed ∧
        (s.stakes pid sender).isFor = true) ∨
        ((s.proposals pid).status = ProposalStatus.Rejected ∧
          (s.stakes pid sender).isFor = false)) := by
      rintro (⟨h1, _⟩ | ⟨h1, _⟩) <;> rw [hexp] at h1 <;> exact ProposalStatus.noConfusion h1
    unfold claimOutsAfter claimStateAfter claimRewards
    dsimp only
    rw [if_neg hfin, if_neg (by omega), if_neg (by simp [hcl]), if_neg hw, if_pos hexp,
      if_pos hamt]
    dsimp only
    simp [updFn]
  · intro hw hexp
    have hsl := slash_lt (s.stakes pid sender).amount hamt
    unfold claimOutsAfter claimStateAfter claimRewards
    dsimp only
    rw [if_neg hfin, if_neg (by omega), if_neg (by simp [hcl]), if_neg hw, if_neg hexp,
      if_pos (by omega)]
    dsimp only
    simp [updFn]

/-- Claim C4 (amended): a claim on a Pending proposal fails with
ProposalNotFinalized; a successful first claim records claimed = true in
the same atomic step as settlement, before the value transfer is
emitted; a further claim for the same (proposal, participant) fails with
AlreadyClaimed as long as the stake record is not overwritten by a
colliding createProposal (the counterexample shows such an overwrite
enables a second successful claim); each successful claim emits exactly
one token transfer out, and no emitted transfer has amount zero. -/
theorem claim_idempotent (s : EngineState) (sender now : Nat) (pid : ProposalId) :
    ((s.proposals pid).status = ProposalStatus.Pending →
      claimRewards s sender now pid = Except.error Err.ProposalNotFinalized) ∧
    ((s.proposals pid).status ≠ ProposalStatus.Pending →
      0 < (s.stakes pid sender).amount → (s.stakes pid sender).claimed = false →
      ((claimStateAfter s sender now pid).stakes pid sender).claimed = true ∧
      (∀ now2, claimRewards (claimStateAfter s sender now pid) sender now2 pid =
        Except.error Err.AlreadyClaimed) ∧
      countTokenOut (claimOutsAfter s sender now pid) = 1 ∧
      (∀ x n, Output.TokenOut x n ∈ claimOutsAfter s sender now pid → 0 < n)) := by
  constructor
  · exact claimRewards_pending s sender now pid
  · intro hfin hamt hcl
    have hset := claim_sets_claimed s sender now pid hfin hamt hcl
    have hshape := claim_outs_shape s sender now pid hfin hamt hcl
    refine ⟨hset, ?_, hshape.1, hshape.2⟩
    intro now2
    have hprop : (claimStateAfter s sender now pid).proposals = s.proposals :=
      claimRewards_proposals s sender now pid
    have hfld := claimRewards_stakes_fields s sender now pid pid sender
    apply claimRewards_claimed
    · rw [hprop]; exact hfin
    · rw [hfld.1]; exact hamt
    · exact hset

/-- Claim C5 (amended): once a proposal is in a terminal (non-Pending)
status, its status and for/against totals are preserved by every
operation except a colliding createProposal call that rederives the same
identifier (same token, direction, creator and timestamp; the
counterexample shows that call resetting an Executed proposal to
Pending), and every staking attempt by a registered agent on the
terminal proposal is rejected with ProposalNotActive. -/
theorem terminal_status_frozen (s : EngineState) (now : Nat) (pid : ProposalId) (op : Op)
    (hterm : (s.proposals pid).status ≠ ProposalStatus.Pending)
    (hnc : collidesWith op now pid = false) :
    ((applyOp s now op).1.proposals pid).status = (s.proposals pid).status ∧
    ((applyOp s now op).1.proposals pid).totalStakeFor = (s.proposals pid).totalStakeFor ∧
    ((applyOp s now op).1.proposals pid).totalStakeAgainst
      = (s.proposals pid).totalStakeAgainst ∧
    (∀ sender amount isFor, (s.agents sender).registered = true →
      stake s sender now pid amount isFor = Except.error Err.ProposalNotActive) := by
  have h := applyOp_proposals_frame s now pid op hterm hnc
  exact ⟨by rw [h], by rw [h], by rw [h],
    fun sender amount isFor hreg => stake_not_pending s sender now pid amount isFor hreg hterm⟩

/-- Claim C6 (amended): the invariant that a Pending proposal satisfies
now < expiresAt does not hold in every reachable state, because expiry is
enforced lazily (the counterexample reaches a Pending proposal past its
expiry); what holds instead is that a Pending proposal at or past its
expiry accepts no further stake (a registered agent gets
ProposalNotActive) and can be transitioned to Expired by anyone through
expireProposal. -/
theorem pending_expiry_lazy (s : EngineState) (now : Nat) (pid : ProposalId)
    (hp : (s.proposals pid).status = ProposalStatus.Pending)
    (hexp : (s.proposals pid).expiresAt ≤ now) :
    (∀ sender amount isFor, (s.agents sender).registered = true →
      stake s sender now pid amount isFor = Except.error Err.ProposalNotActive) ∧
    (expireProposal s now pid).isOk = true ∧
    ((expireStateAfter s now pid).proposals pid).status = ProposalStatus.Expired :=
  ⟨fun sender amount isFor hreg => stake_past_expiry s sender now pid amount isFor hreg hp hexp,
   (expire_ok s now pid hp hexp).1, (expire_ok s now pid hp hexp).2⟩

/-- Claim C7 (amended): no operation of the engine ever calls the
trade-execution venue — the executeSimpleTrade call site is commented
out in the source — so venue success or failure trivially never alters
consensus state; what the engine does emit, whenever a successful stake
drives a proposal to Executed (any direction), is the ConsensusReached
event carrying the proposal identifier, the direction and the final
total for-stake, with no token field (the claimed notification shape
with a token field does not exist, see the counterexample). -/
theorem consensus_notification (s : EngineState) (now : Nat) :
    (∀ op o, o ∈ (applyOp s now op).2 → isVenueCall o = false) ∧
    (∀ sender pid amount isFor,
      (stake s sender now pid amount isFor).isOk = true →
      ((stakeStateAfter s sender now pid amount isFor).proposals pid).status =
        ProposalStatus.Executed →
      Output.ConsensusReached pid (s.proposals pid).direction
        ((stakeStateAfter s sender now pid amount isFor).proposals pid).totalStakeFor
        ∈ stakeOutsAfter s sender now pid amount isFor) := by
  constructor
  · exact fun op o ho => applyOp_venue_free s now op o ho
  · intro sender pid amount isFor hok hx
    obtain ⟨s1, hp1, hf, ha, hdir, hst, houts⟩ :=
      stake_ok_dissect s sender now pid amount isFor hok
    rw [hst] at hx
    have hout := checkConsensus_executed_out s1 pid hp1 hx
    have hfld := (checkConsensus_fields s1 pid).1
    rw [houts, hout, hst, hfld, ← hdir]
    simp

/-- Claim C8 (amended): the proposal identifier is derived
deterministically from (token, direction, creation time, creator) —
identifiers of calls with distinct tuples differ, so replay at a
different instant cannot touch an existing proposal — but two calls with
the identical tuple derive the same identifier, and a successful
createProposal unconditionally rewrites the proposal record and the
creator stake stored at that identifier, so a second call by the same
creator with the same token, direction and timestamp overwrites the
first proposal state rather than being prevented (see the
counterexample). -/
theorem proposal_id_derivation (s : EngineState) (sender now : Nat) (token : Addr)
    (dir : TradeDirection) (amt : Nat)
    (hok : (createProposal s sender now token dir amt).isOk = true) :
    (∀ t2 d2 n2 c2, (⟨token, dir, now, sender⟩ : ProposalId) = ⟨t2, d2, n2, c2⟩ ↔
      (token = t2 ∧ dir = d2 ∧ now = n2 ∧ sender = c2)) ∧
    (createStateAfter s sender now token dir amt).proposals ⟨token, dir, now, sender⟩ =
      { id := ⟨token, dir, now, sender⟩, token := token, direction := dir, createdAt := now,
        expiresAt := now + PROPOSAL_TIMEOUT, totalStakeFor := amt, totalStakeAgainst := 0,
        status := ProposalStatus.Pending, creator := sender } ∧
    (createStateAfter s sender now token dir amt).stakes ⟨token, dir, now, sender⟩ sender =
      ⟨amt, true, false⟩ ∧
    (∀ pid2, pid2 ≠ (⟨token, dir, now, sender⟩ : ProposalId) →
      (createStateAfter s sender now token dir amt).proposals pid2 = s.proposals pid2) :=
  ⟨fun t2 d2 n2 c2 => by simp [ProposalId.mk.injEq],
   (createProposal_writes s sender now token dir amt hok).1,
   (createProposal_writes s sender now token dir amt hok).2,
   fun pid2 h => createProposal_proposals_frame s sender now token dir amt pid2 h⟩

/-- Claim C9: cooldown enforcement.  Settling a losing stake sets the
agents cooldown to now plus COOLDOWN_PERIOD; afterwards every
createProposal call by that agent strictly before the cooldown expires
fails with AgentOnCooldown, a call at or after the cooldown instant is
never rejected with AgentOnCooldown, and the cooldown never gates
staking: a registered agent whose cooldown is still pending can still
stake successfully on any active proposal it has not staked on. -/
theorem cooldown_enforcement (s : EngineState) (sender now : Nat) (pid : ProposalId)
    (hfin : (s.proposals pid).status ≠ ProposalStatus.Pending)
    (hamt : 0 < (s.stakes pid sender).amount)
    (hcl : (s.stakes pid sender).claimed = false)
    (hw : ¬ (((s.proposals pid).status = ProposalStatus.Executed ∧
        (s.stakes pid sender).isFor = true) ∨
        ((s.proposals pid).status = ProposalStatus.Rejected ∧
          (s.stakes pid sender).isFor = false)))
    (hexp : (s.proposals pid).status ≠ ProposalStatus.Expired) :
    ((claimStateAfter s sender now pid).agents sender).cooldownUntil
      = now + COOLDOWN_PERIOD ∧
    (∀ now2 token dir amt,
      ((claimStateAfter s sender now pid).agents sender).registered = true →
      now2 < now + COOLDOWN_PERIOD →
      createProposal (claimStateAfter s sender now pid) sender now2 token dir amt =
        Except.error Err.AgentOnCooldown) ∧
    (∀ now2 token dir amt, now + COOLDOWN_PERIOD ≤ now2 →
      createProposal (claimStateAfter s sender now pid) sender now2 token dir amt ≠
        Except.error Err.AgentOnCooldown) ∧
    (∀ pid2 amount isFor now2,
      ((claimStateAfter s sender now pid).agents sender).registered = true →
      ((claimStateAfter s sender now pid).proposals pid2).status = ProposalStatus.Pending →
      now2 < ((claimStateAfter s sender now pid).proposals pid2).expiresAt →
      ((claimStateAfter s sender now pid).stakes pid2 sender).amount = 0 → amount ≠ 0 →
      (stake (claimStateAfter s sender now pid) sender now2 pid2 amount isFor).isOk
        = true) := by
  have hcool := claim_loser_agent s sender now pid hfin hamt hcl hw hexp
  refine ⟨hcool.1, ?_, ?_, ?_⟩
  · intro now2 token dir amt hreg hlt
    exact createProposal_cooldown _ sender now2 token dir amt hreg (by rw [hcool.1]; exact hlt)
  · intro now2 token dir amt hge
    exact createProposal_no_cooldown _ sender now2 token dir amt (by rw [hcool.1]; exact hge)
  · intro pid2 amount isFor now2 hreg hp2 hexp2 hno hz
    exact stake_isOk _ sender now2 pid2 amount isFor hreg hp2 hexp2 hno hz

/-- Claim C10 (amended): at most one stake record per (proposal,
participant) key ever exists; while the proposal is Pending and not
expired, every further placeStake call by a participant who already
staked fails with AlreadyStaked (on a finalized proposal it fails with
ProposalNotActive instead, see the counterexample); and the amount and
side of an existing stake are preserved by every operation except a
colliding createProposal by the same participant rederiving the same
identifier, which overwrites the record (see the counterexample). -/
theorem single_stake_per_participant (s : EngineState) (now : Nat) (pid : ProposalId)
    (a : Addr) (hamt : 0 < (s.stakes pid a).amount) :
    ((s.agents a).registered = true → (s.proposals pid).status = ProposalStatus.Pending →
      now < (s.proposals pid).expiresAt →
      ∀ amount isFor, stake s a now pid amount isFor = Except.error Err.AlreadyStaked) ∧
    (∀ op, collidesWithStake op now pid a = false →
      ((applyOp s now op).1.stakes pid a).amount = (s.stakes pid a).amount ∧
      ((applyOp s now op).1.stakes pid a).isFor = (s.stakes pid a).isFor) := by
  constructor
  · intro hreg hp hexp amount isFor
    exact stake_already s a now pid amount isFor hreg hp hexp hamt
  · intro op hnc
    have h := applyOp_stakes_frame s now pid a op hamt hnc
    exact ⟨h.1, h.2.1⟩

/-- Witness for settlement_balance at the Scenario A execution: both stakes
of 10000 and 20000 win; payouts 10500 plus 21000 equal stakes 30000 plus
bonuses 1500. -/
theorem settlement_balance_witness :
    ([2, 3] : List Addr).Nodup ∧
    (sExec.proposals pidA).status ≠ ProposalStatus.Pending ∧
    sumPaidOut (settleAll 0 pidA sExec [2, 3]).2 +
      sumSlashed (settleAll 0 pidA sExec [2, 3]).2 =
      (([2, 3] : List Addr).map fun a => (sExec.stakes pidA a).amount).sum +
      (([2, 3] : List Addr).map fun a => bonusOf (sExec.proposals pidA).status
        (sExec.stakes pidA a).isFor (sExec.stakes pidA a).amount).sum :=
  ⟨by decide, by decide,
   settlement_balance 0 pidA [2, 3] sExec (by decide) (by decide)
     (by intro a ha; simp at ha; rcases ha with rfl | rfl <;> exact ⟨by decide, by decide⟩)⟩

/-- Witness for quorum_decision_rule: agent 3 stakes 20000 for on the
pending proposal with totals (10000, 0); the decision on (30000, 0) is
Executed. -/
theorem quorum_decision_rule_witness :
    (stake sPend 3 0 pidA 20000 true).isOk = true ∧
    ((stakeStateAfter sPend 3 0 pidA 20000 true).proposals pidA).status =
      quorumDecision ((sPend.proposals pidA).totalStakeFor + (if true then 20000 else 0))
        ((sPend.proposals pidA).totalStakeAgainst + (if true then 0 else 20000)) :=
  ⟨by decide, (quorum_decision_rule sPend 3 0 pidA 20000 true (by decide)).1⟩

/-- Witness for settlement_payouts: a winning 10000 stake pays 10500, a
losing 10000 stake pays 9000 after a 1000 slash, an expired 10000 stake
is refunded exactly. -/
theorem settlement_payouts_witness :
    ((sExec.proposals pidA).status ≠ ProposalStatus.Pending ∧
     0 < (sExec.stakes pidA 2).amount ∧ (sExec.stakes pidA 2).claimed = false) ∧
    claimOutsAfter sExec 2 0 pidA =
      [Output.RewardClaimed 2 pidA 10500, Output.TokenOut 2 10500] ∧
    claimOutsAfter sRej 2 0 pidA =
      [Output.AgentSlashed 2 1000, Output.TokenOut 2 9000] ∧
    claimOutsAfter sExp 2 30 pidA = [Output.TokenOut 2 10000] :=
  ⟨⟨by decide, by decide, by decide⟩,
   ((settlement_payouts sExec 2 0 pidA (by decide) (by decide) (by decide)).2.1
     (by decide)).1,
   ((settlement_payouts sRej 2 0 pidA (by decide) (by decide) (by decide)).2.2.2
     (by decide) (by decide)).1,
   ((settlement_payouts sExp 2 30 pidA (by decide) (by decide) (by decide)).2.2.1
     (by decide)).1⟩

/-- Witness for claim_idempotent: a claim on the still-pending proposal
fails NotFinalized; after the winning claim on the executed proposal the
flag is set, an immediate second claim fails AlreadyClaimed, and exactly
one transfer was emitted. -/
theorem claim_idempotent_witness :
    claimRewards sPend 2 0 pidA = Except.error Err.ProposalNotFinalized ∧
    ((claimStateAfter sExec 2 0 pidA).stakes pidA 2).claimed = true ∧
    claimRewards (claimStateAfter sExec 2 0 pidA) 2 7 pidA =
      Except.error Err.AlreadyClaimed ∧
    countTokenOut (claimOutsAfter sExec 2 0 pidA) = 1 :=
  ⟨(claim_idempotent sPend 2 0 pidA).1 (by decide),
   ((claim_idempotent sExec 2 0 pidA).2 (by decide) (by decide) (by decide)).1,
   ((claim_idempotent sExec 2 0 pidA).2 (by decide) (by decide) (by decide)).2.1 7,
   ((claim_idempotent sExec 2 0 pidA).2 (by decide) (by decide) (by decide)).2.2.1⟩

/-- Witness for terminal_status_frozen: on the executed proposal, a
claimRewards call leaves the status unchanged and a staking attempt by
registered agent 3 is rejected with ProposalNotActive. -/
theorem terminal_status_frozen_witness :
    (sExec.proposals pidA).status ≠ ProposalStatus.Pending ∧
    collidesWith (Op.claimRewardsOp 3 pidA) 0 pidA = false ∧
    ((applyOp sExec 0 (Op.claimRewardsOp 3 pidA)).1.proposals pidA).status
      = (sExec.proposals pidA).status ∧
    stake sExec 3 0 pidA 5 true = Except.error Err.ProposalNotActive :=
  ⟨by decide, by decide,
   (terminal_status_frozen sExec 0 pidA (Op.claimRewardsOp 3 pidA)
     (by decide) (by decide)).1,
   (terminal_status_frozen sExec 0 pidA (Op.claimRewardsOp 3 pidA)
     (by decide) (by decide)).2.2.2 3 5 true (by decide)⟩

/-- Witness for pending_expiry_lazy at the lazy-expiry execution: the
proposal is Pending at its expiry instant, staking is rejected and
expireProposal succeeds. -/
theorem pending_expiry_lazy_witness :
    ((runW w0 esLazy).st.proposals pidA).status = ProposalStatus.Pending ∧
    ((runW w0 esLazy).st.proposals pidA).expiresAt ≤ 30 ∧
    stake (runW w0 esLazy).st 2 30 pidA 5 true = Except.error Err.ProposalNotActive ∧
    (expireProposal (runW w0 esLazy).st 30 pidA).isOk = true :=
  ⟨by decide, by decide,
   (pending_expiry_lazy (runW w0 esLazy).st 30 pidA (by decide) (by decide)).1
     2 5 true (by decide),
   (pending_expiry_lazy (runW w0 esLazy).st 30 pidA (by decide) (by decide)).2.1⟩

/-- Witness for consensus_notification: the stake that drives the pending
proposal to Executed emits no venue call, and the ConsensusReached event
with the final for-total is among its outputs. -/
theorem consensus_notification_witness :
    Output.TokenIn 3 20000 ∈ (applyOp sPend 0 (Op.stakeOp 3 pidA 20000 true)).2 ∧
    isVenueCall (Output.TokenIn 3 20000) = false ∧
    (stake sPend 3 0 pidA 20000 true).isOk = true ∧
    ((stakeStateAfter sPend 3 0 pidA 20000 true).proposals pidA).status
      = ProposalStatus.Executed ∧
    Output.ConsensusReached pidA (sPend.proposals pidA).direction
      ((stakeStateAfter sPend 3 0 pidA 20000 true).proposals pidA).totalStakeFor
      ∈ stakeOutsAfter sPend 3 0 pidA 20000 true :=
  ⟨by decide,
   (consensus_notification sPend 0).1 (Op.stakeOp 3 pidA 20000 true)
     (Output.TokenIn 3 20000) (by decide),
   by decide, by decide,
   (consensus_notification sPend 0).2 3 pidA 20000 true (by decide) (by decide)⟩

/-- Witness for proposal_id_derivation: agent 3 creates a proposal on token
9; the derived identifier stores its stake, and identifiers of calls at
distinct timestamps differ in the injectivity characterization. -/
theorem proposal_id_derivation_witness :
    (createProposal sPend 3 0 9 TradeDirection.Short 40).isOk = true ∧
    (createStateAfter sPend 3 0 9 TradeDirection.Short 40).stakes
      ⟨9, TradeDirection.Short, 0, 3⟩ 3 = ⟨40, true, false⟩ ∧
    ((⟨9, TradeDirection.Short, 0, 3⟩ : ProposalId) = ⟨9, TradeDirection.Short, 1, 3⟩ ↔
      ((9 : Addr) = 9 ∧ TradeDirection.Short = TradeDirection.Short ∧
        (0 : Nat) = 1 ∧ (3 : Addr) = 3)) :=
  ⟨by decide,
   (proposal_id_derivation sPend 3 0 9 TradeDirection.Short 40 (by decide)).2.2.1,
   (proposal_id_derivation sPend 3 0 9 TradeDirection.Short 40 (by decide)).1
     9 TradeDirection.Short 1 3⟩

/-- Witness for cooldown_enforcement at the fixture where agent 2 lost on
the rejected proposal: the claim sets cooldown until 60; creating at 10
fails AgentOnCooldown, creating at 60 is not blocked by cooldown, and
staking on the other pending proposal at 10 succeeds. -/
theorem cooldown_enforcement_witness :
    ((claimStateAfter sCd 2 0 pidA).agents 2).cooldownUntil = 0 + COOLDOWN_PERIOD ∧
    createProposal (claimStateAfter sCd 2 0 pidA) 2 10 7 TradeDirection.Long 5 =
      Except.error Err.AgentOnCooldown ∧
    createProposal (claimStateAfter sCd 2 0 pidA) 2 60 7 TradeDirection.Long 5 ≠
      Except.error Err.AgentOnCooldown ∧
    (stake (claimStateAfter sCd 2 0 pidA) 2 10 pidB 5 true).isOk = true :=
  ⟨(cooldown_enforcement sCd 2 0 pidA (by decide) (by decide) (by decide)
      (by decide) (by decide)).1,
   (cooldown_enforcement sCd 2 0 pidA (by decide) (by decide) (by decide)
      (by decide) (by decide)).2.1 10 7 TradeDirection.Long 5 (by decide) (by decide),
   (cooldown_enforcement sCd 2 0 pidA (by decide) (by decide) (by decide)
      (by decide) (by decide)).2.2.1 60 7 TradeDirection.Long 5 (by decide),
   (cooldown_enforcement sCd 2 0 pidA (by decide) (by decide) (by decide)
      (by decide) (by decide)).2.2.2 pidB 5 true 10 (by decide) (by decide)
      (by decide) (by decide) (by decide)⟩

/-- Witness for single_stake_per_participant: the creator of the pending
proposal cannot stake again (AlreadyStaked), and a stake by another
agent preserves the creator stake record. -/
theorem single_stake_per_participant_witness :
    0 < (sPend.stakes pidA 2).amount ∧
    stake sPend 2 0 pidA 500 false = Except.error Err.AlreadyStaked ∧
    collidesWithStake (Op.stakeOp 3 pidA 200 true) 0 pidA 2 = false ∧
    ((applyOp sPend 0 (Op.stakeOp 3 pidA 200 true)).1.stakes pidA 2).amount
      = (sPend.stakes pidA 2).amount :=
  ⟨by decide,
   (single_stake_per_participant sPend 0 pidA 2 (by decide)).1 (by decide) (by decide)
     (by decide) 500 false,
   by decide,
   ((single_stake_per_participant sPend 0 pidA 2 (by decide)).2
     (Op.stakeOp 3 pidA 200 true) (by decide)).1⟩
